import Mathlib

/-!
Romu pseudorandom number generators (RomuRandom.hpp)

A shallow embedding of `src/RomuRandom.hpp`.

* Unsigned words (`uint32_t`, `uint64_t`) are natural numbers; every arithmetic
  operation of the source is followed by an explicit reduction modulo `2 ^ width`.
* `std::array<uintN_t, k>` is a `k`-tuple of natural numbers, in index order.
* A C++ shift whose count is not below the width of its (promoted) left operand has
  no defined result.  The two shifts inside the `ROTL` macro are therefore modelled
  as partial operations (`Option`), and so is every `next()` that expands `ROTL`.
  Shifts written in the source with a literal in-range count (`z >> 30`,
  `m_state >> 16`, ...) are modelled directly by `>>>`.
* `size_t` is taken to be 64 bits wide.
* A sum of a variable and a numeric literal is written literal first (`c + x` for the
  source text `x + c`).  It is the same number; in this order the kernel does not
  unfold the literal into successors when a term with a free variable is reduced.
-/

namespace Romu

/-! ## Word-level operations -/

/-- The C++ expression `d << k` on an unsigned word of `n` bits: the low `n` bits of
the shifted value, and no result when `k` is not below `n`. -/
def shl (n d k : Nat) : Option Nat :=
  if k < n then some ((d <<< k) % 2 ^ n) else none

/-- The C++ expression `d >> k` on an unsigned word of `n` bits; no result when `k`
is not below `n`. -/
def shr (n d k : Nat) : Option Nat :=
  if k < n then some (d >>> k) else none

/-- The preprocessor definition of the source,
`ROTL(d, lrot) = ((d << (lrot)) | (d >> (8 * sizeof(d) - (lrot))))`,
for an operand `d` of `n = 8 * sizeof(d)` bits.  The count of the right shift is
computed in `size_t`, so it wraps modulo `2 ^ 64` when `lrot` exceeds `n`. -/
def ROTL (n d lrot : Nat) : Option Nat := do
  let hi ← shl n d lrot
  let lo ← shr n d ((n + 2 ^ 64 - lrot) % 2 ^ 64)
  pure (hi ||| lo)

/-- Unsigned subtraction `a - b` on words of `n` bits (wraps modulo `2 ^ n`). -/
def usub (n a b : Nat) : Nat :=
  (((a : Int) - (b : Int)) % (2 ^ n : Int)).toNat

/-- Specification-side rotation, following the words of the specification: the
bitwise left rotation of `v` by `k` places within a word of `n` bits.  Bit `i` of the
result is bit `(i - k) mod n` of `v` (see `rotlSpec_testBit`). -/
def rotlSpec (n v k : Nat) : Nat :=
  ((v <<< (k % n)) ||| (v >>> (n - k % n))) % 2 ^ n

/-! ## Seed expanders -/

/-- The class `SplitMix32`: `uint32_t m_state`. -/
structure SplitMix32 where
  m_state : Nat
deriving DecidableEq, Repr

/-- The constructor `SplitMix32(uint32_t state)`. -/
def SplitMix32.fromState (state : Nat) : SplitMix32 :=
  ⟨state⟩

/-- The method `SplitMix32::next()`: the returned word and the expander afterwards. -/
def SplitMix32.next (e : SplitMix32) : Nat × SplitMix32 :=
  let m := (1664525 * ((314159265 + e.m_state) % 2 ^ 32)) % 2 ^ 32
  let z := m
  let z := ((z ^^^ (z >>> 15)) * 0x5ce4e5b9) % 2 ^ 32
  let z := ((z ^^^ (z >>> 13)) * 0x1331c1eb) % 2 ^ 32
  (z ^^^ (z >>> 15), ⟨m⟩)

/-- The class `SplitMix`: `uint64_t m_state`. -/
structure SplitMix where
  m_state : Nat
deriving DecidableEq, Repr

/-- The constructor `SplitMix(uint64_t state)`. -/
def SplitMix.fromState (state : Nat) : SplitMix :=
  ⟨state⟩

/-- The method `SplitMix::next()`: the returned word and the expander afterwards. -/
def SplitMix.next (e : SplitMix) : Nat × SplitMix :=
  let m := (0x9e3779b97f4a7c15 + e.m_state) % 2 ^ 64
  let z := m
  let z := ((z ^^^ (z >>> 30)) * 0xbf58476d1ce4e5b9) % 2 ^ 64
  let z := ((z ^^^ (z >>> 27)) * 0x94d049bb133111eb) % 2 ^ 64
  (z ^^^ (z >>> 31), ⟨m⟩)

/-- The values returned by `k` successive calls of `SplitMix32::next()`. -/
def SplitMix32.outputs : Nat → SplitMix32 → List Nat
  | 0, _ => []
  | k + 1, e => (e.next).1 :: SplitMix32.outputs k (e.next).2

/-- The values returned by `k` successive calls of `SplitMix::next()`. -/
def SplitMix.outputs : Nat → SplitMix → List Nat
  | 0, _ => []
  | k + 1, e => (e.next).1 :: SplitMix.outputs k (e.next).2

/-- The caller loop: `n` successive calls of an output-producing method `step`,
collecting the returned values; no result as soon as one call has none. -/
def run {G : Type} (step : G → Option (Nat × G)) : Nat → G → Option (List Nat × G)
  | 0, g => some ([], g)
  | n + 1, g =>
    match step g with
    | none => none
    | some (o, g1) =>
      match run step n g1 with
      | none => none
      | some (os, g2) => some (o :: os, g2)

/-! ## Quad -/

/-- The class `Quad`: `std::array<uint64_t, 4> m_state`. -/
structure Quad where
  m_state : Nat × Nat × Nat × Nat
deriving DecidableEq, Repr

/-- The constructor `Quad(uint64_t w, uint64_t x, uint64_t y, uint64_t z)`. -/
def Quad.fromWords (w x y z : Nat) : Quad :=
  ⟨(w, x, y, z)⟩

/-- The constructor `Quad(uint64_t state[4])`; `state i` is the element `state[i]`. -/
def Quad.fromPointer (state : Nat → Nat) : Quad :=
  ⟨(state 0, state 1, state 2, state 3)⟩

/-- The constructor `Quad(std::array<uint64_t, 4> state) : m_state(state)`. -/
def Quad.fromArray (state : Nat × Nat × Nat × Nat) : Quad :=
  ⟨state⟩

/-- The method `Quad::seed(uint64_t s)`: assigns `m_state[0]` and `m_state[1]` and
nothing else. -/
def Quad.seed (g : Quad) (s : Nat) : Quad :=
  let smix := SplitMix.fromState s
  let (_, _, y, z) := g.m_state
  let (e0, smix) := smix.next
  let (e1, _) := smix.next
  ⟨(e0, e1, y, z)⟩

/-- The accessor `Quad::state()`: returns a copy of `m_state`. -/
def Quad.state (g : Quad) : Nat × Nat × Nat × Nat :=
  g.m_state

/-- The method `Quad::next()`: the returned word and the generator afterwards. -/
def Quad.next (g : Quad) : Option (Nat × Quad) := do
  let (wp, xp, yp, zp) := g.m_state
  let s0 := (15241094284759029579 * zp) % 2 ^ 64
  let r ← ROTL 64 wp 52
  let s1 := (zp + r) % 2 ^ 64
  let s2 := usub 64 yp xp
  let s3 := (yp + wp) % 2 ^ 64
  let s3 ← ROTL 64 s3 19
  pure (xp, ⟨(s0, s1, s2, s3)⟩)

/-! ## Trio -/

/-- The class `Trio`: `std::array<uint64_t, 3> m_state`. -/
structure Trio where
  m_state : Nat × Nat × Nat
deriving DecidableEq, Repr

/-- The constructor `Trio(uint64_t w, uint64_t x, uint64_t y)`. -/
def Trio.fromWords (w x y : Nat) : Trio :=
  ⟨(w, x, y)⟩

/-- The constructor `Trio(uint64_t state[3])`. -/
def Trio.fromPointer (state : Nat → Nat) : Trio :=
  ⟨(state 0, state 1, state 2)⟩

/-- The constructor `Trio(std::array<uint64_t, 3> state) : m_state(state)`. -/
def Trio.fromArray (state : Nat × Nat × Nat) : Trio :=
  ⟨state⟩

/-- The method `Trio::seed(uint64_t s)`: assigns `m_state[0]` and `m_state[1]` and
nothing else. -/
def Trio.seed (g : Trio) (s : Nat) : Trio :=
  let smix := SplitMix.fromState s
  let (_, _, z) := g.m_state
  let (e0, smix) := smix.next
  let (e1, _) := smix.next
  ⟨(e0, e1, z)⟩

/-- The accessor `Trio::state()`. -/
def Trio.state (g : Trio) : Nat × Nat × Nat :=
  g.m_state

/-- The method `Trio::next()`. -/
def Trio.next (g : Trio) : Option (Nat × Trio) := do
  let (xp, yp, zp) := g.m_state
  let s0 := (15241094284759029579 * zp) % 2 ^ 64
  let s1 := usub 64 yp xp
  let s1 ← ROTL 64 s1 12
  let s2 := usub 64 zp yp
  let s2 ← ROTL 64 s2 44
  pure (xp, ⟨(s0, s1, s2)⟩)

/-! ## Duo -/

/-- The class `Duo`: `std::array<uint64_t, 2> m_state`. -/
structure Duo where
  m_state : Nat × Nat
deriving DecidableEq, Repr

/-- The constructor `Duo(uint64_t w, uint64_t x)`. -/
def Duo.fromWords (w x : Nat) : Duo :=
  ⟨(w, x)⟩

/-- The constructor `Duo(uint64_t state[2])`. -/
def Duo.fromPointer (state : Nat → Nat) : Duo :=
  ⟨(state 0, state 1)⟩

/-- The constructor `Duo(std::array<uint64_t, 2> state) : m_state(state)`. -/
def Duo.fromArray (state : Nat × Nat) : Duo :=
  ⟨state⟩

/-- The method `Duo::seed(uint64_t s)`. -/
def Duo.seed (_g : Duo) (s : Nat) : Duo :=
  let smix := SplitMix.fromState s
  let (e0, smix) := smix.next
  let (e1, _) := smix.next
  ⟨(e0, e1)⟩

/-- The accessor `Duo::state()`. -/
def Duo.state (g : Duo) : Nat × Nat :=
  g.m_state

/-- The method `Duo::random()`.  The second assignment reads `m_state[1]`, which the
first assignment (to `m_state[0]`) has not touched. -/
def Duo.random (g : Duo) : Option (Nat × Duo) := do
  let (m0, m1) := g.m_state
  let xp := m0
  let n0 := (15241094284759029579 * m1) % 2 ^ 64
  let a ← ROTL 64 m1 36
  let b ← ROTL 64 m1 15
  let n1 := usub 64 ((a + b) % 2 ^ 64) xp
  pure (xp, ⟨(n0, n1)⟩)

/-! ## DuoJr -/

/-- The class `DuoJr`: `std::array<uint64_t, 2> m_state`. -/
structure DuoJr where
  m_state : Nat × Nat
deriving DecidableEq, Repr

/-- The constructor `DuoJr(uint64_t w, uint64_t x)`. -/
def DuoJr.fromWords (w x : Nat) : DuoJr :=
  ⟨(w, x)⟩

/-- The constructor `DuoJr(uint64_t state[2])`. -/
def DuoJr.fromPointer (state : Nat → Nat) : DuoJr :=
  ⟨(state 0, state 1)⟩

/-- The constructor `DuoJr(std::array<uint64_t, 2> state) : m_state(state)`. -/
def DuoJr.fromArray (state : Nat × Nat) : DuoJr :=
  ⟨state⟩

/-- The method `DuoJr::seed(uint64_t s)`. -/
def DuoJr.seed (_g : DuoJr) (s : Nat) : DuoJr :=
  let smix := SplitMix.fromState s
  let (e0, smix) := smix.next
  let (e1, _) := smix.next
  ⟨(e0, e1)⟩

/-- The accessor `DuoJr::state()`. -/
def DuoJr.state (g : DuoJr) : Nat × Nat :=
  g.m_state

/-- The method `DuoJr::next()`. -/
def DuoJr.next (g : DuoJr) : Option (Nat × DuoJr) := do
  let (m0, m1) := g.m_state
  let xp := m0
  let n0 := (15241094284759029579 * m1) % 2 ^ 64
  let n1 := usub 64 m1 xp
  let n1 ← ROTL 64 n1 27
  pure (xp, ⟨(n0, n1)⟩)

/-! ## Quad32 -/

/-- The class `Quad32`: `std::array<uint32_t, 4> m_state`. -/
structure Quad32 where
  m_state : Nat × Nat × Nat × Nat
deriving DecidableEq, Repr

/-- The constructor `Quad32(uint32_t w, uint32_t x, uint32_t y, uint32_t z)`. -/
def Quad32.fromWords (w x y z : Nat) : Quad32 :=
  ⟨(w, x, y, z)⟩

/-- The constructor `Quad32(uint32_t state[4])`. -/
def Quad32.fromPointer (state : Nat → Nat) : Quad32 :=
  ⟨(state 0, state 1, state 2, state 3)⟩

/-- The constructor `Quad32(std::array<uint32_t, 4> state) : m_state(state)`. -/
def Quad32.fromArray (state : Nat × Nat × Nat × Nat) : Quad32 :=
  ⟨state⟩

/-- The method `Quad32::seed(uint32_t s)`: assigns `m_state[0]` and `m_state[1]` and
nothing else. -/
def Quad32.seed (g : Quad32) (s : Nat) : Quad32 :=
  let smix := SplitMix32.fromState s
  let (_, _, y, z) := g.m_state
  let (e0, smix) := smix.next
  let (e1, _) := smix.next
  ⟨(e0, e1, y, z)⟩

/-- The accessor `Quad32::state()`. -/
def Quad32.state (g : Quad32) : Nat × Nat × Nat × Nat :=
  g.m_state

/-- The method `Quad32::next()`. -/
def Quad32.next (g : Quad32) : Option (Nat × Quad32) := do
  let (wp, xp, yp, zp) := g.m_state
  let s0 := (3323815723 * zp) % 2 ^ 32
  let r ← ROTL 32 wp 26
  let s1 := (zp + r) % 2 ^ 32
  let s2 := usub 32 yp xp
  let s3 := (yp + wp) % 2 ^ 32
  let s3 ← ROTL 32 s3 9
  pure (xp, ⟨(s0, s1, s2, s3)⟩)

/-! ## Trio32 -/

/-- The class `Trio32`: `std::array<uint32_t, 3> m_state`. -/
structure Trio32 where
  m_state : Nat × Nat × Nat
deriving DecidableEq, Repr

/-- The constructor `Trio32(uint32_t w, uint32_t x, uint32_t y)`. -/
def Trio32.fromWords (w x y : Nat) : Trio32 :=
  ⟨(w, x, y)⟩

/-- The constructor `Trio32(uint32_t state[3])`. -/
def Trio32.fromPointer (state : Nat → Nat) : Trio32 :=
  ⟨(state 0, state 1, state 2)⟩

/-- The constructor `Trio32(std::array<uint32_t, 3> state) : m_state(state)`. -/
def Trio32.fromArray (state : Nat × Nat × Nat) : Trio32 :=
  ⟨state⟩

/-- The method `Trio32::seed(uint32_t s)`: assigns `m_state[0]` and `m_state[1]` and
nothing else. -/
def Trio32.seed (g : Trio32) (s : Nat) : Trio32 :=
  let smix := SplitMix32.fromState s
  let (_, _, z) := g.m_state
  let (e0, smix) := smix.next
  let (e1, _) := smix.next
  ⟨(e0, e1, z)⟩

/-- The accessor `Trio32::state()`. -/
def Trio32.state (g : Trio32) : Nat × Nat × Nat :=
  g.m_state

/-- The method `Trio32::next()`.  The multiplier literal `15241094284759029579u` has a
64-bit unsigned type, so the product is formed in 64 bits and truncated to 32 bits by
the assignment.  Both `ROTL` operands are `uint32_t`. -/
def Trio32.next (g : Trio32) : Option (Nat × Trio32) := do
  let (xp, yp, zp) := g.m_state
  let s0 := ((15241094284759029579 * zp) % 2 ^ 64) % 2 ^ 32
  let s1 := usub 32 yp xp
  let s1 ← ROTL 32 s1 12
  let s2 := usub 32 zp yp
  let s2 ← ROTL 32 s2 44
  pure (xp, ⟨(s0, s1, s2)⟩)

/-! ## Mono32 -/

/-- The class `Mono32`: `uint32_t m_state`. -/
structure Mono32 where
  m_state : Nat
deriving DecidableEq, Repr

/-- The constructor `Mono32(uint32_t s)`. -/
def Mono32.fromSeed (s : Nat) : Mono32 :=
  ⟨(1156979152 + (s &&& 0x1fffffff)) % 2 ^ 32⟩

/-- The method `Mono32::seed(uint32_t s)`. -/
def Mono32.seed (_g : Mono32) (s : Nat) : Mono32 :=
  ⟨(1156979152 + (s &&& 0x1fffffff)) % 2 ^ 32⟩

/-- The accessor `Mono32::state()`. -/
def Mono32.state (g : Mono32) : Nat :=
  g.m_state

/-- The method `Mono32::next()`; the result is a `uint16_t`. -/
def Mono32.next (g : Mono32) : Option (Nat × Mono32) := do
  let result := (g.m_state >>> 16) % 2 ^ 16
  let m := (g.m_state * 3611795771) % 2 ^ 32
  let m ← ROTL 32 m 12
  pure (result, ⟨m⟩)

/-! ## Calling sequences and well-formed states -/

/-- The values returned by the first `n` calls of `step`, when all of them have a
result. -/
def outputsOf {G : Type} (step : G → Option (Nat × G)) (n : Nat) (g : G) :
    Option (List Nat) :=
  (run step n g).map Prod.fst

/-- Every word of a `Quad` state is a `uint64_t`. -/
def Quad.wf (g : Quad) : Prop :=
  g.m_state.1 < 2 ^ 64 ∧ g.m_state.2.1 < 2 ^ 64 ∧ g.m_state.2.2.1 < 2 ^ 64
    ∧ g.m_state.2.2.2 < 2 ^ 64

/-- Every word of a `Trio` state is a `uint64_t`. -/
def Trio.wf (g : Trio) : Prop :=
  g.m_state.1 < 2 ^ 64 ∧ g.m_state.2.1 < 2 ^ 64 ∧ g.m_state.2.2 < 2 ^ 64

/-- Every word of a `Duo` state is a `uint64_t`. -/
def Duo.wf (g : Duo) : Prop :=
  g.m_state.1 < 2 ^ 64 ∧ g.m_state.2 < 2 ^ 64

/-- Every word of a `DuoJr` state is a `uint64_t`. -/
def DuoJr.wf (g : DuoJr) : Prop :=
  g.m_state.1 < 2 ^ 64 ∧ g.m_state.2 < 2 ^ 64

/-- Every word of a `Quad32` state is a `uint32_t`. -/
def Quad32.wf (g : Quad32) : Prop :=
  g.m_state.1 < 2 ^ 32 ∧ g.m_state.2.1 < 2 ^ 32 ∧ g.m_state.2.2.1 < 2 ^ 32
    ∧ g.m_state.2.2.2 < 2 ^ 32

/-- The state of a `Mono32` is a `uint32_t`. -/
def Mono32.wf (g : Mono32) : Prop :=
  g.m_state < 2 ^ 32

instance (g : Quad) : Decidable g.wf := by unfold Quad.wf; infer_instance
instance (g : Trio) : Decidable g.wf := by unfold Trio.wf; infer_instance
instance (g : Duo) : Decidable g.wf := by unfold Duo.wf; infer_instance
instance (g : DuoJr) : Decidable g.wf := by unfold DuoJr.wf; infer_instance
instance (g : Quad32) : Decidable g.wf := by unfold Quad32.wf; infer_instance
instance (g : Mono32) : Decidable g.wf := by unfold Mono32.wf; infer_instance

/-! ## Time-seeded construction

The clock reading `time(nullptr)` is an input `t`; `time_t` is a signed 64-bit integer
and `>>` on it is the arithmetic shift.  A member that a constructor does not assign
holds an indeterminate value, which is an input `uninit` of the model. -/

/-- The constructor `SplitMix32()`: `m_state = (time(nullptr) >> 32)`, converted to
`uint32_t` by the assignment. -/
def SplitMix32.fromTime (t : Int) : SplitMix32 :=
  ⟨((t >>> (32 : Nat)) % (2 ^ 32 : Int)).toNat⟩

/-- The constructor `SplitMix()`: `m_state = static_cast<uint64_t>(time(nullptr))`. -/
def SplitMix.fromTime (t : Int) : SplitMix :=
  ⟨(t % (2 ^ 64 : Int)).toNat⟩

/-- The constructor `Quad()`: assigns `m_state[0]` and `m_state[1]`. -/
def Quad.fromTime (t : Int) (uninit : Nat × Nat × Nat × Nat) : Quad :=
  let smix := SplitMix.fromTime t
  let (_, _, y, z) := uninit
  let (e0, smix) := smix.next
  let (e1, _) := smix.next
  ⟨(e0, e1, y, z)⟩

/-- The constructor `Trio()`: assigns `m_state[0]` and `m_state[1]`. -/
def Trio.fromTime (t : Int) (uninit : Nat × Nat × Nat) : Trio :=
  let smix := SplitMix.fromTime t
  let (_, _, z) := uninit
  let (e0, smix) := smix.next
  let (e1, _) := smix.next
  ⟨(e0, e1, z)⟩

/-- The constructor `Duo()`. -/
def Duo.fromTime (t : Int) : Duo :=
  let smix := SplitMix.fromTime t
  let (e0, smix) := smix.next
  let (e1, _) := smix.next
  ⟨(e0, e1)⟩

/-- The constructor `DuoJr()`. -/
def DuoJr.fromTime (t : Int) : DuoJr :=
  let smix := SplitMix.fromTime t
  let (e0, smix) := smix.next
  let (e1, _) := smix.next
  ⟨(e0, e1)⟩

/-- The constructor `Quad32()`: assigns `m_state[0]` and `m_state[1]`. -/
def Quad32.fromTime (t : Int) (uninit : Nat × Nat × Nat × Nat) : Quad32 :=
  let smix := SplitMix32.fromTime t
  let (_, _, y, z) := uninit
  let (e0, smix) := smix.next
  let (e1, _) := smix.next
  ⟨(e0, e1, y, z)⟩

/-- The constructor `Trio32()`: assigns `m_state[0]` and `m_state[1]`. -/
def Trio32.fromTime (t : Int) (uninit : Nat × Nat × Nat) : Trio32 :=
  let smix := SplitMix32.fromTime t
  let (_, _, z) := uninit
  let (e0, smix) := smix.next
  let (e1, _) := smix.next
  ⟨(e0, e1, z)⟩

/-- The argument computed in the constructor `Mono32()`:
`static_cast<uint32_t>(time(nullptr) >> 32)`. -/
def Mono32.timeSeed (t : Int) : Nat :=
  ((t >>> (32 : Nat)) % (2 ^ 32 : Int)).toNat

/-- The constructor `Mono32()`: its body builds a temporary `Mono32(seed)` and drops
it; the member `m_state` of the object under construction is not assigned. -/
def Mono32.fromTime (t : Int) (uninit : Nat) : Mono32 :=
  let _temporary := Mono32.fromSeed (Mono32.timeSeed t)
  ⟨uninit⟩

/-! ## The uses of `ROTL` in the source -/

/-- The uses of `ROTL` in `Quad::next`, in source order, each as
(bit width of the operand, rotation count). -/
def Quad.rotlUses : List (Nat × Nat) := [(64, 52), (64, 19)]

/-- The uses of `ROTL` in `Trio::next`. -/
def Trio.rotlUses : List (Nat × Nat) := [(64, 12), (64, 44)]

/-- The uses of `ROTL` in `Duo::random`. -/
def Duo.rotlUses : List (Nat × Nat) := [(64, 36), (64, 15)]

/-- The use of `ROTL` in `DuoJr::next`. -/
def DuoJr.rotlUses : List (Nat × Nat) := [(64, 27)]

/-- The uses of `ROTL` in `Quad32::next`. -/
def Quad32.rotlUses : List (Nat × Nat) := [(32, 26), (32, 9)]

/-- The uses of `ROTL` in `Trio32::next`; the operands are `uint32_t`. -/
def Trio32.rotlUses : List (Nat × Nat) := [(32, 12), (32, 44)]

/-- The use of `ROTL` in `Mono32::next`. -/
def Mono32.rotlUses : List (Nat × Nat) := [(32, 12)]

/-- The count of the right shift that `ROTL(d, lrot)` performs on an operand of `n`
bits: `8 * sizeof(d) - lrot` in `size_t`. -/
def rotlRightCount (n lrot : Nat) : Nat :=
  (n + 2 ^ 64 - lrot) % 2 ^ 64

/-! ## Specification-side mixing steps -/

/-- Specification-side xor-shift step: `z ^ (z >> k)`. -/
def xorShift (k z : Nat) : Nat :=
  z ^^^ (z >>> k)

/-- Specification-side multiplication step on words of `n` bits: `z * c` modulo
`2 ^ n`. -/
def mulStep (n c z : Nat) : Nat :=
  (z * c) % 2 ^ n

/-- The state of the generator after a call, when the call has a result. -/
def stateAfter {G : Type} (step : G → Option (Nat × G)) (g : G) : Option G :=
  (step g).map Prod.snd

/-! ## The value returned and the state left by `Trio32::next`, separately -/

/-- The method `Trio32::next()` once more, with its two effects kept apart.  The first
component is the value returned: `xp`, read from `m_state[0]` on the first line of the
body, before any assignment and before either `ROTL`, and returned unchanged on the
last line.  The second component is the state the call leaves, which has no defined
value when a `ROTL` has none.  `Trio32.next` is the conjunction of the two (see
`Trio32_next_eq_parts`). -/
def Trio32.nextParts (g : Trio32) : Nat × Option Trio32 :=
  let (xp, yp, zp) := g.m_state
  (xp, do
    let s0 := ((15241094284759029579 * zp) % 2 ^ 64) % 2 ^ 32
    let s1 := usub 32 yp xp
    let s1 ← ROTL 32 s1 12
    let s2 := usub 32 zp yp
    let s2 ← ROTL 32 s2 44
    pure ⟨(s0, s1, s2)⟩)

/-! ## Output streams -/

/-- The output stream of a generator: for every `n`, the values returned by the first
`n` calls of `step`. -/
def streamOf {G : Type} (step : G → Option (Nat × G)) (g : G) : Nat → Option (List Nat) :=
  fun n => outputsOf step n g

/-- The state that `Mono32::next()` leaves, as arithmetic on the old state `s`: with
`p = 3611795771 * s mod 2 ^ 32`, the low 20 bits of `p` moved up by 12 places and the
high 12 bits of `p` moved down (see `Mono32_next_eq_arith`). -/
def Mono32.advance (s : Nat) : Nat :=
  ((3611795771 * s) % 2 ^ 32 % 2 ^ 20) * 2 ^ 12 + (3611795771 * s) % 2 ^ 32 / 2 ^ 20

/-! ## Lemmas on the word-level operations -/

theorem rotlSpec_lt (n v k : Nat) : rotlSpec n v k < 2 ^ n :=
  Nat.mod_lt _ (Nat.two_pow_pos n)

/-- The specification-side rotation really is a rotation of the `n` low bits: bit `i`
of the result is bit `(i - k) mod n` of the operand, and no bit at or above `n` is
set. -/
theorem rotlSpec_testBit (n v k i : Nat) (hv : v < 2 ^ n) :
    (rotlSpec n v k).testBit i = (decide (i < n) && v.testBit ((i + n - k % n) % n)) := by
  unfold rotlSpec
  rw [Nat.testBit_mod_two_pow, Nat.testBit_or, Nat.testBit_shiftLeft, Nat.testBit_shiftRight]
  by_cases hi : i < n
  · have hn : 0 < n := by omega
    have hk : k % n < n := Nat.mod_lt _ hn
    simp only [hi, decide_True, Bool.true_and]
    by_cases hik : k % n ≤ i
    · have h1 : (i + n - k % n) % n = i - k % n := by
        have : i + n - k % n = (i - k % n) + n := by omega
        rw [this, Nat.add_mod_right, Nat.mod_eq_of_lt (by omega)]
      have h2 : v.testBit (n - k % n + i) = false := by
        apply Nat.testBit_lt_two_pow
        exact lt_of_lt_of_le hv (Nat.pow_le_pow_right (by decide) (by omega))
      simp [h1, h2, hik]
    · have h1 : (i + n - k % n) % n = n - k % n + i := by
        rw [Nat.mod_eq_of_lt (by omega)]; omega
      have h3 : ¬ (i ≥ k % n) := by omega
      simp [h1, h3]
  · simp [hi]

/-- Within its defined range the source `ROTL` is the specified rotation. -/
theorem ROTL_eq_rotlSpec (n d k : Nat) (hd : d < 2 ^ n) (hk0 : 0 < k) (hkn : k < n)
    (hn : n ≤ 2 ^ 64) :
    ROTL n d k = some (rotlSpec n d k) := by
  have h1 : (n + 2 ^ 64 - k) % 2 ^ 64 = n - k := by
    have : n + 2 ^ 64 - k = (n - k) + 2 ^ 64 := by omega
    rw [this, Nat.add_mod_right, Nat.mod_eq_of_lt (by omega)]
  have h2 : n - k < n := by omega
  simp only [ROTL, shl, shr, h1, hkn, h2, if_true, Option.bind_eq_bind, Option.some_bind,
    Option.pure_def]
  congr 1
  apply Nat.eq_of_testBit_eq
  intro i
  rw [rotlSpec_testBit n d k i hd]
  rw [Nat.testBit_or, Nat.testBit_mod_two_pow, Nat.testBit_shiftLeft, Nat.testBit_shiftRight]
  have hkm : k % n = k := Nat.mod_eq_of_lt hkn
  rw [hkm]
  by_cases hi : i < n
  · by_cases hik : k ≤ i
    · have e1 : (i + n - k) % n = i - k := by
        have : i + n - k = (i - k) + n := by omega
        rw [this, Nat.add_mod_right, Nat.mod_eq_of_lt (by omega)]
      have e2 : d.testBit (n - k + i) = false := by
        apply Nat.testBit_lt_two_pow
        exact lt_of_lt_of_le hd (Nat.pow_le_pow_right (by decide) (by omega))
      simp [hi, hik, e1, e2]
    · have e1 : (i + n - k) % n = n - k + i := by
        rw [Nat.mod_eq_of_lt (by omega)]; omega
      have e3 : ¬ (i ≥ k) := by omega
      simp [hi, e1, e3]
  · have e2 : d.testBit (n - k + i) = false := by
      apply Nat.testBit_lt_two_pow
      exact lt_of_lt_of_le hd (Nat.pow_le_pow_right (by decide) (by omega))
    simp [hi, e2]

theorem usub_lt (n a b : Nat) : usub n a b < 2 ^ n := by
  unfold usub
  have hpos : (0 : Int) < 2 ^ n := by positivity
  have h1 := Int.emod_lt_of_pos ((a : Int) - (b : Int)) hpos
  have h2 := Int.emod_nonneg ((a : Int) - (b : Int)) (ne_of_gt hpos)
  have h3 : (((((a : Int) - (b : Int)) % (2 ^ n : Int)).toNat : Nat) : Int) < ((2 ^ n : Nat) : Int) := by
    rw [Int.toNat_of_nonneg h2]; push_cast; exact h1
  exact_mod_cast h3

theorem add_mod_lt (n a b : Nat) : (a + b) % 2 ^ n < 2 ^ n :=
  Nat.mod_lt _ (Nat.two_pow_pos n)

theorem usub_add_mod (n a b x : Nat) :
    usub n ((a + b) % 2 ^ n) x = (((a : Int) + (b : Int) - (x : Int)) % (2 ^ n : Int)).toNat := by
  unfold usub
  congr 1
  push_cast
  rw [Int.sub_emod, Int.emod_emod, ← Int.sub_emod]

theorem ROTL_none_of_le (n d k : Nat) (h : n ≤ k) : ROTL n d k = none := by
  have h1 : ¬ k < n := by omega
  simp [ROTL, shl, h1]

/-! ## The update step of each variant, in closed form -/

theorem Quad_next_eq (w x y z : Nat) (hw : w < 2 ^ 64) :
    Quad.next ⟨(w, x, y, z)⟩ =
      some (x, ⟨((15241094284759029579 * z) % 2 ^ 64, (z + rotlSpec 64 w 52) % 2 ^ 64,
                usub 64 y x, rotlSpec 64 ((y + w) % 2 ^ 64) 19)⟩) := by
  have h1 := ROTL_eq_rotlSpec 64 w 52 hw (by decide) (by decide) (by decide)
  have h2 := ROTL_eq_rotlSpec 64 ((y + w) % 2 ^ 64) 19 (add_mod_lt 64 y w)
    (by decide) (by decide) (by decide)
  simp only [Quad.next, h1, h2, Option.bind_eq_bind, Option.some_bind, Option.pure_def]

theorem Trio_next_eq (x y z : Nat) :
    Trio.next ⟨(x, y, z)⟩ =
      some (x, ⟨((15241094284759029579 * z) % 2 ^ 64, rotlSpec 64 (usub 64 y x) 12,
                rotlSpec 64 (usub 64 z y) 44)⟩) := by
  have h1 := ROTL_eq_rotlSpec 64 (usub 64 y x) 12 (usub_lt 64 y x)
    (by decide) (by decide) (by decide)
  have h2 := ROTL_eq_rotlSpec 64 (usub 64 z y) 44 (usub_lt 64 z y)
    (by decide) (by decide) (by decide)
  simp only [Trio.next, h1, h2, Option.bind_eq_bind, Option.some_bind, Option.pure_def]

theorem Duo_random_eq (x y : Nat) (hy : y < 2 ^ 64) :
    Duo.random ⟨(x, y)⟩ =
      some (x, ⟨((15241094284759029579 * y) % 2 ^ 64,
                usub 64 ((rotlSpec 64 y 36 + rotlSpec 64 y 15) % 2 ^ 64) x)⟩) := by
  have h1 := ROTL_eq_rotlSpec 64 y 36 hy (by decide) (by decide) (by decide)
  have h2 := ROTL_eq_rotlSpec 64 y 15 hy (by decide) (by decide) (by decide)
  simp only [Duo.random, h1, h2, Option.bind_eq_bind, Option.some_bind, Option.pure_def]

theorem DuoJr_next_eq (x y : Nat) :
    DuoJr.next ⟨(x, y)⟩ =
      some (x, ⟨((15241094284759029579 * y) % 2 ^ 64, rotlSpec 64 (usub 64 y x) 27)⟩) := by
  have h1 := ROTL_eq_rotlSpec 64 (usub 64 y x) 27 (usub_lt 64 y x)
    (by decide) (by decide) (by decide)
  simp only [DuoJr.next, h1, Option.bind_eq_bind, Option.some_bind, Option.pure_def]

theorem Quad32_next_eq (w x y z : Nat) (hw : w < 2 ^ 32) :
    Quad32.next ⟨(w, x, y, z)⟩ =
      some (x, ⟨((3323815723 * z) % 2 ^ 32, (z + rotlSpec 32 w 26) % 2 ^ 32,
                usub 32 y x, rotlSpec 32 ((y + w) % 2 ^ 32) 9)⟩) := by
  have h1 := ROTL_eq_rotlSpec 32 w 26 hw (by decide) (by decide) (by decide)
  have h2 := ROTL_eq_rotlSpec 32 ((y + w) % 2 ^ 32) 9 (add_mod_lt 32 y w)
    (by decide) (by decide) (by decide)
  simp only [Quad32.next, h1, h2, Option.bind_eq_bind, Option.some_bind, Option.pure_def]

theorem Trio32_next_eq_none (g : Trio32) : Trio32.next g = none := by
  obtain ⟨⟨x, y, z⟩⟩ := g
  have h1 := ROTL_eq_rotlSpec 32 (usub 32 y x) 12 (usub_lt 32 y x)
    (by decide) (by decide) (by decide)
  have h2 := ROTL_none_of_le 32 (usub 32 z y) 44 (by decide)
  simp only [Trio32.next, h1, h2, Option.bind_eq_bind, Option.some_bind, Option.none_bind]

theorem Mono32_next_eq (s : Nat) (hs : s < 2 ^ 32) :
    Mono32.next ⟨s⟩ = some (s / 2 ^ 16, ⟨rotlSpec 32 ((3611795771 * s) % 2 ^ 32) 12⟩) := by
  have hlt : s / 2 ^ 16 < 2 ^ 16 := by omega
  have h1 := ROTL_eq_rotlSpec 32 ((3611795771 * s) % 2 ^ 32) 12
    (Nat.mod_lt _ (Nat.two_pow_pos 32)) (by decide) (by decide) (by decide)
  have h2 : (s >>> 16) % 2 ^ 16 = s / 2 ^ 16 := by
    rw [Nat.shiftRight_eq_div_pow, Nat.mod_eq_of_lt hlt]
  simp only [Mono32.next, h2, Nat.mul_comm s 3611795771, h1, Option.bind_eq_bind,
    Option.some_bind, Option.pure_def]

/-! ## Well-formed states stay well-formed, and every call has a result -/

theorem Quad_next_wf (g : Quad) (h : g.wf) :
    ∃ o g1, Quad.next g = some (o, g1) ∧ g1.wf := by
  obtain ⟨⟨w, x, y, z⟩⟩ := g
  obtain ⟨hw, -, -, -⟩ := h
  exact ⟨_, _, Quad_next_eq w x y z hw,
    Nat.mod_lt _ (Nat.two_pow_pos 64), Nat.mod_lt _ (Nat.two_pow_pos 64),
    usub_lt 64 y x, rotlSpec_lt 64 _ 19⟩

theorem Trio_next_wf (g : Trio) (_h : g.wf) :
    ∃ o g1, Trio.next g = some (o, g1) ∧ g1.wf := by
  obtain ⟨⟨x, y, z⟩⟩ := g
  exact ⟨_, _, Trio_next_eq x y z,
    Nat.mod_lt _ (Nat.two_pow_pos 64), rotlSpec_lt 64 _ 12, rotlSpec_lt 64 _ 44⟩

theorem Duo_random_wf (g : Duo) (h : g.wf) :
    ∃ o g1, Duo.random g = some (o, g1) ∧ g1.wf := by
  obtain ⟨⟨x, y⟩⟩ := g
  obtain ⟨-, hy⟩ := h
  exact ⟨_, _, Duo_random_eq x y hy, Nat.mod_lt _ (Nat.two_pow_pos 64), usub_lt 64 _ x⟩

theorem DuoJr_next_wf (g : DuoJr) (_h : g.wf) :
    ∃ o g1, DuoJr.next g = some (o, g1) ∧ g1.wf := by
  obtain ⟨⟨x, y⟩⟩ := g
  exact ⟨_, _, DuoJr_next_eq x y, Nat.mod_lt _ (Nat.two_pow_pos 64), rotlSpec_lt 64 _ 27⟩

theorem Quad32_next_wf (g : Quad32) (h : g.wf) :
    ∃ o g1, Quad32.next g = some (o, g1) ∧ g1.wf := by
  obtain ⟨⟨w, x, y, z⟩⟩ := g
  obtain ⟨hw, -, -, -⟩ := h
  exact ⟨_, _, Quad32_next_eq w x y z hw,
    Nat.mod_lt _ (Nat.two_pow_pos 32), Nat.mod_lt _ (Nat.two_pow_pos 32),
    usub_lt 32 y x, rotlSpec_lt 32 _ 9⟩

theorem Mono32_next_wf (g : Mono32) (h : g.wf) :
    ∃ o g1, Mono32.next g = some (o, g1) ∧ g1.wf := by
  obtain ⟨s⟩ := g
  exact ⟨_, _, Mono32_next_eq s h, rotlSpec_lt 32 _ 12⟩

/-- A step that has a result on every state satisfying an invariant, and preserves
the invariant, can be called any number of times. -/
theorem run_total {G : Type} (step : G → Option (Nat × G)) (P : G → Prop)
    (hstep : ∀ g, P g → ∃ o g1, step g = some (o, g1) ∧ P g1) :
    ∀ (n : Nat) (g : G), P g → ∃ os g1, run step n g = some (os, g1) ∧ os.length = n ∧ P g1 := by
  intro n
  induction n with
  | zero => intro g hg; exact ⟨[], g, rfl, rfl, hg⟩
  | succ n ih =>
    intro g hg
    obtain ⟨o, g1, h1, hP1⟩ := hstep g hg
    obtain ⟨os, g2, h2, hlen, hP2⟩ := ih g1 hP1
    refine ⟨o :: os, g2, ?_, by simp [hlen], hP2⟩
    simp only [run, h1, h2]

theorem outputsOf_total {G : Type} (step : G → Option (Nat × G)) (P : G → Prop)
    (hstep : ∀ g, P g → ∃ o g1, step g = some (o, g1) ∧ P g1) (n : Nat) (g : G) (hg : P g) :
    ∃ os, outputsOf step n g = some os ∧ os.length = n := by
  obtain ⟨os, g1, h, hlen, -⟩ := run_total step P hstep n g hg
  exact ⟨os, by simp [outputsOf, h], hlen⟩

/-- Once a call has no result, no longer calling sequence has one. -/
theorem run_none_of_step_none {G : Type} (step : G → Option (Nat × G))
    (h : ∀ g, step g = none) (n : Nat) (g : G) : run step (n + 1) g = none := by
  simp only [run, h]

/-! ## Claims on the update step -/

/-- C1: for every Quad state (w, x, y, z) of 64-bit words, next() returns the old x and
leaves (C1 * z mod 2^64, z + ROTL64(w, 52) mod 2^64, y - x mod 2^64,
ROTL64(y + w mod 2^64, 19)) with C1 = 15241094284759029579; from (1, 2, 3, 4) it
returns 2 and leaves (5624144917907463468, 4503599627370500, 1, 2097152). -/
theorem Quad_next_spec (w x y z : Nat) (hw : w < 2 ^ 64) :
    Quad.next ⟨(w, x, y, z)⟩ =
        some (x, ⟨((15241094284759029579 * z) % 2 ^ 64,
                  (z + rotlSpec 64 w 52) % 2 ^ 64,
                  (((y : Int) - (x : Int)) % (2 ^ 64 : Int)).toNat,
                  rotlSpec 64 ((y + w) % 2 ^ 64) 19)⟩)
      ∧ Quad.next ⟨(1, 2, 3, 4)⟩ =
        some (2, ⟨(5624144917907463468, 4503599627370500, 1, 2097152)⟩) := by
  constructor
  · have h := Quad_next_eq w x y z hw
    simpa only [usub] using h
  · decide

theorem Quad_next_spec_witness :
    (5 : Nat) < 2 ^ 64 ∧
    (Quad.next ⟨(5, 6, 7, 8)⟩ =
        some (6, ⟨((15241094284759029579 * 8) % 2 ^ 64,
                  (8 + rotlSpec 64 5 52) % 2 ^ 64,
                  ((((7 : Nat) : Int) - ((6 : Nat) : Int)) % (2 ^ 64 : Int)).toNat,
                  rotlSpec 64 ((7 + 5) % 2 ^ 64) 19)⟩)
      ∧ Quad.next ⟨(1, 2, 3, 4)⟩ =
        some (2, ⟨(5624144917907463468, 4503599627370500, 1, 2097152)⟩)) :=
  ⟨by decide, Quad_next_spec 5 6 7 8 (by decide)⟩

/-- C2: Trio::next, Duo::random and DuoJr::next return the old x and advance as the
table says, all arithmetic modulo 2^64 with C1 = 15241094284759029579:
Trio (x, y, z) to (C1 * z, ROTL64(y - x, 12), ROTL64(z - y, 44)),
Duo (x, y) to (C1 * y, ROTL64(y, 36) + ROTL64(y, 15) - x),
DuoJr (x, y) to (C1 * y, ROTL64(y - x, 27)); every new word is a function of the old
words only. -/
theorem Trio_Duo_DuoJr_next_spec (x y z : Nat) (hy : y < 2 ^ 64) :
    Trio.next ⟨(x, y, z)⟩ =
        some (x, ⟨((15241094284759029579 * z) % 2 ^ 64,
                  rotlSpec 64 (usub 64 y x) 12,
                  rotlSpec 64 (usub 64 z y) 44)⟩)
      ∧ Duo.random ⟨(x, y)⟩ =
        some (x, ⟨((15241094284759029579 * y) % 2 ^ 64,
                  (((rotlSpec 64 y 36 : Int) + (rotlSpec 64 y 15 : Int) - (x : Int))
                    % (2 ^ 64 : Int)).toNat)⟩)
      ∧ DuoJr.next ⟨(x, y)⟩ =
        some (x, ⟨((15241094284759029579 * y) % 2 ^ 64,
                  rotlSpec 64 (usub 64 y x) 27)⟩) := by
  refine ⟨Trio_next_eq x y z, ?_, DuoJr_next_eq x y⟩
  have h := Duo_random_eq x y hy
  rw [usub_add_mod] at h
  exact h

theorem Trio_Duo_DuoJr_next_spec_witness :
    (7 : Nat) < 2 ^ 64 ∧
    (Trio.next ⟨(9, 7, 3)⟩ =
        some (9, ⟨((15241094284759029579 * 3) % 2 ^ 64,
                  rotlSpec 64 (usub 64 7 9) 12,
                  rotlSpec 64 (usub 64 3 7) 44)⟩)
      ∧ Duo.random ⟨(9, 7)⟩ =
        some (9, ⟨((15241094284759029579 * 7) % 2 ^ 64,
                  (((rotlSpec 64 7 36 : Int) + (rotlSpec 64 7 15 : Int) - ((9 : Nat) : Int))
                    % (2 ^ 64 : Int)).toNat)⟩)
      ∧ DuoJr.next ⟨(9, 7)⟩ =
        some (9, ⟨((15241094284759029579 * 7) % 2 ^ 64,
                  rotlSpec 64 (usub 64 7 9) 27)⟩)) :=
  ⟨by decide, Trio_Duo_DuoJr_next_spec 9 7 3 (by decide)⟩

/-- C3: for every Quad32 state (w, x, y, z) of 32-bit words, next() returns the old x
and leaves (C2 * z mod 2^32, z + ROTL32(w, 26) mod 2^32, y - x mod 2^32,
ROTL32(y + w mod 2^32, 9)) with C2 = 3323815723. -/
theorem Quad32_next_spec (w x y z : Nat) (hw : w < 2 ^ 32) :
    Quad32.next ⟨(w, x, y, z)⟩ =
        some (x, ⟨((3323815723 * z) % 2 ^ 32,
                  (z + rotlSpec 32 w 26) % 2 ^ 32,
                  (((y : Int) - (x : Int)) % (2 ^ 32 : Int)).toNat,
                  rotlSpec 32 ((y + w) % 2 ^ 32) 9)⟩) := by
  have h := Quad32_next_eq w x y z hw
  simpa only [usub] using h

theorem Quad32_next_spec_witness :
    (4000000000 : Nat) < 2 ^ 32 ∧
    Quad32.next ⟨(4000000000, 6, 5, 8)⟩ =
        some (6, ⟨((3323815723 * 8) % 2 ^ 32,
                  (8 + rotlSpec 32 4000000000 26) % 2 ^ 32,
                  ((((5 : Nat) : Int) - ((6 : Nat) : Int)) % (2 ^ 32 : Int)).toNat,
                  rotlSpec 32 ((5 + 4000000000) % 2 ^ 32) 9)⟩) :=
  ⟨by decide, Quad32_next_spec 4000000000 6 5 8 (by decide)⟩

/-- C4 (the code departs from the claim): Trio32::next() expands ROTL(m_state[2], 44)
on a 32-bit operand, that is a left shift by 44 and a right shift by 32 - 44, a count
that wraps in size_t to 2^64 - 12.  Both counts are at least the width of the operand,
so the call has no defined result, for every state (x, y, z); in particular it does not
leave the state (C1 * z mod 2^32, ROTL32(y - x, 12), ROTL32(z - y, 44)) of the claim.
The rotation by 12 in the same function is within range and is the specified
rotation. -/
theorem Trio32_next_undefined (x y z : Nat) :
    Trio32.next ⟨(x, y, z)⟩ = none
      ∧ shl 32 (usub 32 z y) 44 = none
      ∧ shr 32 (usub 32 z y) ((32 + 2 ^ 64 - 44) % 2 ^ 64) = none
      ∧ ROTL 32 (usub 32 z y) 44 = none
      ∧ ROTL 32 (usub 32 y x) 12 = some (rotlSpec 32 (usub 32 y x) 12) := by
  refine ⟨Trio32_next_eq_none _, ?_, ?_, ROTL_none_of_le 32 _ 44 (by decide),
    ROTL_eq_rotlSpec 32 (usub 32 y x) 12 (usub_lt 32 y x) (by decide) (by decide) (by decide)⟩
  · simp [shl]
  · simp [shr]

/-- C5: for every 32-bit Mono32 state s, next() returns floor(s / 2^16), a value
below 2^16, and leaves the state ROTL32(C3 * s mod 2^32, 12) with C3 = 3611795771. -/
theorem Mono32_next_spec (s : Nat) (hs : s < 2 ^ 32) :
    Mono32.next ⟨s⟩ = some (s / 2 ^ 16, ⟨rotlSpec 32 ((3611795771 * s) % 2 ^ 32) 12⟩)
      ∧ s / 2 ^ 16 < 2 ^ 16 :=
  ⟨Mono32_next_eq s hs, by omega⟩

theorem Mono32_next_spec_witness :
    (4294967295 : Nat) < 2 ^ 32 ∧
    (Mono32.next ⟨4294967295⟩ =
        some (4294967295 / 2 ^ 16, ⟨rotlSpec 32 ((3611795771 * 4294967295) % 2 ^ 32) 12⟩)
      ∧ 4294967295 / 2 ^ 16 < 2 ^ 16) :=
  ⟨by decide, Mono32_next_spec 4294967295 (by decide)⟩

/-! ## Claims on seeding -/

/-- C6: for every 32-bit seed s, Mono32(s) and seed(s) on any existing Mono32 leave
state() equal to (s & 0x1fffffff) + 1156979152 without wraparound, a value in
[1156979152, 1693850063]; for s = 0xFFFFFFFF the state is 1693850063, not the raw
seed. -/
theorem Mono32_seed_state (s : Nat) (g : Mono32) :
    (Mono32.fromSeed s).state = (s &&& 0x1fffffff) + 1156979152
      ∧ (Mono32.seed g s).state = (s &&& 0x1fffffff) + 1156979152
      ∧ 1156979152 ≤ (s &&& 0x1fffffff) + 1156979152
      ∧ (s &&& 0x1fffffff) + 1156979152 ≤ 1693850063
      ∧ (Mono32.fromSeed 0xFFFFFFFF).state = 1693850063
      ∧ (Mono32.seed g 0xFFFFFFFF).state = 1693850063
      ∧ (1693850063 : Nat) ≠ 0xFFFFFFFF := by
  have hm : s &&& 0x1fffffff ≤ 0x1fffffff := Nat.and_le_right
  have hmod : (1156979152 + (s &&& 0x1fffffff)) % 2 ^ 32 = (s &&& 0x1fffffff) + 1156979152 := by
    rw [Nat.mod_eq_of_lt (by omega), Nat.add_comm]
  refine ⟨?_, ?_, by omega, by omega, rfl, rfl, by decide⟩
  · simp only [Mono32.fromSeed, Mono32.state, hmod]
  · simp only [Mono32.seed, Mono32.state, hmod]

/-- What seed(s) stores in the variants with more than two state words: the first two
expander outputs in words 0 and 1; every further word keeps its prior value. -/
theorem seed_state_general (s : Nat) (q : Quad) (t : Trio) (q32 : Quad32) (t32 : Trio32) :
    (Quad.seed q s).state =
        ((SplitMix.fromState s).next.1, (SplitMix.fromState s).next.2.next.1,
          q.m_state.2.2.1, q.m_state.2.2.2)
      ∧ (Trio.seed t s).state =
        ((SplitMix.fromState s).next.1, (SplitMix.fromState s).next.2.next.1, t.m_state.2.2)
      ∧ (Quad32.seed q32 s).state =
        ((SplitMix32.fromState s).next.1, (SplitMix32.fromState s).next.2.next.1,
          q32.m_state.2.2.1, q32.m_state.2.2.2)
      ∧ (Trio32.seed t32 s).state =
        ((SplitMix32.fromState s).next.1, (SplitMix32.fromState s).next.2.next.1,
          t32.m_state.2.2) :=
  ⟨rfl, rfl, rfl, rfl⟩

/-- C7 (the code departs from the claim): seed(s) of Quad, Trio, Quad32 and Trio32
assigns m_state[0] and m_state[1] only.  On generators whose state is all zero,
seed(0) leaves words 2 and 3 at zero, while the third and fourth outputs of the
expander started at 0 are 487617019471545679 and 17909611376780542444 (SplitMix)
and 937636883 and 3220856936 (SplitMix32). -/
theorem seed_fills_two_words_only :
    (Quad.seed ⟨(0, 0, 0, 0)⟩ 0).state = (16294208416658607535, 7960286522194355700, 0, 0)
      ∧ (Trio.seed ⟨(0, 0, 0)⟩ 0).state = (16294208416658607535, 7960286522194355700, 0)
      ∧ SplitMix.outputs 4 (SplitMix.fromState 0) =
          [16294208416658607535, 7960286522194355700, 487617019471545679,
            17909611376780542444]
      ∧ (Quad32.seed ⟨(0, 0, 0, 0)⟩ 0).state = (1586789953, 2693788287, 0, 0)
      ∧ (Trio32.seed ⟨(0, 0, 0)⟩ 0).state = (1586789953, 2693788287, 0)
      ∧ SplitMix32.outputs 4 (SplitMix32.fromState 0) =
          [1586789953, 2693788287, 937636883, 3220856936] := by
  decide

/-- C8: for Duo and DuoJr, for every seed s and every state before the call, seed(s)
leaves the state (e1, e2), the first and second values returned by next() of a
SplitMix constructed with state s; the result does not depend on the prior state.
With s = 0 the two words are the first two SplitMix outputs from 0. -/
theorem Duo_DuoJr_seed_spec (s : Nat) (g g2 : Duo) (j j2 : DuoJr) :
    (Duo.seed g s).state =
        ((SplitMix.fromState s).next.1, (SplitMix.fromState s).next.2.next.1)
      ∧ (DuoJr.seed j s).state =
        ((SplitMix.fromState s).next.1, (SplitMix.fromState s).next.2.next.1)
      ∧ SplitMix.outputs 2 (SplitMix.fromState s) =
          [(Duo.seed g s).state.1, (Duo.seed g s).state.2]
      ∧ SplitMix.outputs 2 (SplitMix.fromState s) =
          [(DuoJr.seed j s).state.1, (DuoJr.seed j s).state.2]
      ∧ Duo.seed g s = Duo.seed g2 s
      ∧ DuoJr.seed j s = DuoJr.seed j2 s
      ∧ (Duo.seed g 0).state = (16294208416658607535, 7960286522194355700)
      ∧ (DuoJr.seed j 0).state = (16294208416658607535, 7960286522194355700) :=
  ⟨rfl, rfl, rfl, rfl, rfl, rfl, rfl, rfl⟩

/-- Seeding is deterministic for the variants whose seed() assigns the whole state:
after seed(s) two Duo, two DuoJr or two Mono32 instances are equal, so every calling
sequence returns the same values on both. -/
theorem seed_determinism_whole_state (s n : Nat) (d d2 : Duo) (j j2 : DuoJr) (m m2 : Mono32) :
    outputsOf Duo.random n (Duo.seed d s) = outputsOf Duo.random n (Duo.seed d2 s)
      ∧ outputsOf DuoJr.next n (DuoJr.seed j s) = outputsOf DuoJr.next n (DuoJr.seed j2 s)
      ∧ outputsOf Mono32.next n (Mono32.seed m s) = outputsOf Mono32.next n (Mono32.seed m2 s) :=
  ⟨rfl, rfl, rfl⟩

/-- C9 (the code departs from the claim): seeding is not deterministic for Quad, Trio,
Quad32 and Trio32, because seed(s) keeps the prior words 2 and 3.  Two instances
whose prior states differ in the last word only, both seeded with 0, return
different second values (Quad, Trio, Quad32) and hold different states (Trio32). -/
theorem seed_determinism_fails :
    outputsOf Quad.next 2 (Quad.seed ⟨(0, 0, 0, 0)⟩ 0) =
        some [7960286522194355700, 15780087572905570780]
      ∧ outputsOf Quad.next 2 (Quad.seed ⟨(0, 0, 0, 1)⟩ 0) =
        some [7960286522194355700, 15780087572905570781]
      ∧ outputsOf Trio.next 2 (Trio.seed ⟨(0, 0, 0)⟩ 0) = some [16294208416658607535, 0]
      ∧ outputsOf Trio.next 2 (Trio.seed ⟨(0, 0, 1)⟩ 0) =
        some [16294208416658607535, 15241094284759029579]
      ∧ outputsOf Quad32.next 2 (Quad32.seed ⟨(0, 0, 0, 0)⟩ 0) = some [2693788287, 91902457]
      ∧ outputsOf Quad32.next 2 (Quad32.seed ⟨(0, 0, 0, 1)⟩ 0) = some [2693788287, 91902458]
      ∧ (Trio32.seed ⟨(0, 0, 0)⟩ 0).state ≠ (Trio32.seed ⟨(0, 0, 1)⟩ 0).state := by
  decide

/-! ## Checkpointing -/

/-- C10: for each of Quad, Trio, Duo, DuoJr, Quad32 and Trio32, state() returns the
current words in order, the generator built from that array by the explicit-state
constructor is the generator itself, and for every n both return the same first n
values.  For the five variants whose next() is defined the n values exist. -/
theorem checkpoint_round_trip (n : Nat) (q : Quad) (t : Trio) (d : Duo) (j : DuoJr)
    (q32 : Quad32) (t32 : Trio32)
    (hq : q.wf) (ht : t.wf) (hd : d.wf) (hj : j.wf) (hq32 : q32.wf) :
    (q.state = q.m_state ∧ Quad.fromArray q.state = q ∧
        ∃ os, os.length = n ∧ outputsOf Quad.next n (Quad.fromArray q.state) = some os
          ∧ outputsOf Quad.next n q = some os)
      ∧ (t.state = t.m_state ∧ Trio.fromArray t.state = t ∧
        ∃ os, os.length = n ∧ outputsOf Trio.next n (Trio.fromArray t.state) = some os
          ∧ outputsOf Trio.next n t = some os)
      ∧ (d.state = d.m_state ∧ Duo.fromArray d.state = d ∧
        ∃ os, os.length = n ∧ outputsOf Duo.random n (Duo.fromArray d.state) = some os
          ∧ outputsOf Duo.random n d = some os)
      ∧ (j.state = j.m_state ∧ DuoJr.fromArray j.state = j ∧
        ∃ os, os.length = n ∧ outputsOf DuoJr.next n (DuoJr.fromArray j.state) = some os
          ∧ outputsOf DuoJr.next n j = some os)
      ∧ (q32.state = q32.m_state ∧ Quad32.fromArray q32.state = q32 ∧
        ∃ os, os.length = n ∧ outputsOf Quad32.next n (Quad32.fromArray q32.state) = some os
          ∧ outputsOf Quad32.next n q32 = some os)
      ∧ (t32.state = t32.m_state ∧ Trio32.fromArray t32.state = t32 ∧
        outputsOf Trio32.next n (Trio32.fromArray t32.state) = outputsOf Trio32.next n t32) := by
  obtain ⟨o1, h1, l1⟩ := outputsOf_total Quad.next Quad.wf Quad_next_wf n q hq
  obtain ⟨o2, h2, l2⟩ := outputsOf_total Trio.next Trio.wf Trio_next_wf n t ht
  obtain ⟨o3, h3, l3⟩ := outputsOf_total Duo.random Duo.wf Duo_random_wf n d hd
  obtain ⟨o4, h4, l4⟩ := outputsOf_total DuoJr.next DuoJr.wf DuoJr_next_wf n j hj
  obtain ⟨o5, h5, l5⟩ := outputsOf_total Quad32.next Quad32.wf Quad32_next_wf n q32 hq32
  exact ⟨⟨rfl, rfl, o1, l1, h1, h1⟩, ⟨rfl, rfl, o2, l2, h2, h2⟩, ⟨rfl, rfl, o3, l3, h3, h3⟩,
    ⟨rfl, rfl, o4, l4, h4, h4⟩, ⟨rfl, rfl, o5, l5, h5, h5⟩, ⟨rfl, rfl, rfl⟩⟩

theorem checkpoint_round_trip_witness :
    (Quad.wf ⟨(1, 2, 3, 4)⟩ ∧ Trio.wf ⟨(1, 2, 3)⟩ ∧ Duo.wf ⟨(1, 2)⟩ ∧ DuoJr.wf ⟨(1, 2)⟩
        ∧ Quad32.wf ⟨(1, 2, 3, 4)⟩)
      ∧ ((Quad.mk (1, 2, 3, 4)).state = (1, 2, 3, 4)
        ∧ Quad.fromArray (Quad.mk (1, 2, 3, 4)).state = Quad.mk (1, 2, 3, 4)
        ∧ ∃ os, os.length = 3
          ∧ outputsOf Quad.next 3 (Quad.fromArray (Quad.mk (1, 2, 3, 4)).state) = some os
          ∧ outputsOf Quad.next 3 (Quad.mk (1, 2, 3, 4)) = some os) :=
  ⟨by decide,
    (checkpoint_round_trip 3 ⟨(1, 2, 3, 4)⟩ ⟨(1, 2, 3)⟩ ⟨(1, 2)⟩ ⟨(1, 2)⟩ ⟨(1, 2, 3, 4)⟩
      ⟨(1, 2, 3)⟩ (by decide) (by decide) (by decide) (by decide) (by decide)).1⟩

/-! ## Injectivity of the word-level steps -/

theorem xorShift_lt_two_pow (n k z : Nat) (hz : z < 2 ^ n) : z ^^^ (z >>> k) < 2 ^ n :=
  Nat.xor_lt_two_pow hz (lt_of_le_of_lt (by rw [Nat.shiftRight_eq_div_pow]; exact Nat.div_le_self _ _) hz)

/-- The xor-shift step is injective on words of `n` bits. -/
theorem xorShift_inj (n k a b : Nat) (hk : 0 < k) (ha : a < 2 ^ n) (hb : b < 2 ^ n)
    (h : a ^^^ (a >>> k) = b ^^^ (b >>> k)) : a = b := by
  have key : ∀ d i, n ≤ i + d → a.testBit i = b.testBit i := by
    intro d
    induction d with
    | zero =>
      intro i hi
      have h1 : a.testBit i = false :=
        Nat.testBit_lt_two_pow (lt_of_lt_of_le ha (Nat.pow_le_pow_right (by decide) (by omega)))
      have h2 : b.testBit i = false :=
        Nat.testBit_lt_two_pow (lt_of_lt_of_le hb (Nat.pow_le_pow_right (by decide) (by omega)))
      rw [h1, h2]
    | succ d ih =>
      intro i hi
      have hup : a.testBit (k + i) = b.testBit (k + i) := ih (k + i) (by omega)
      have hbit := congrArg (fun v => v.testBit i) h
      simp only [Nat.testBit_xor, Nat.testBit_shiftRight] at hbit
      rw [hup] at hbit
      cases ha1 : a.testBit i <;> cases hb1 : b.testBit i <;>
        cases hc : b.testBit (k + i) <;> simp_all
  exact Nat.eq_of_testBit_eq (fun i => key n i (by omega))

/-- Multiplication by an odd constant is injective on words of `n` bits. -/
theorem mul_odd_inj (n c a b : Nat) (hc : c % 2 = 1) (ha : a < 2 ^ n) (hb : b < 2 ^ n)
    (h : (c * a) % 2 ^ n = (c * b) % 2 ^ n) : a = b := by
  have hcop : Nat.gcd (2 ^ n) c = 1 := by
    apply Nat.Coprime.pow_left
    rw [Nat.coprime_comm, Nat.coprime_two_right]
    exact Nat.odd_iff.mpr hc
  have h1 : a ≡ b [MOD 2 ^ n] := Nat.ModEq.cancel_left_of_coprime hcop h
  have h2 : a % 2 ^ n = b % 2 ^ n := h1
  rwa [Nat.mod_eq_of_lt ha, Nat.mod_eq_of_lt hb] at h2

/-- The specified rotation is injective on words of `n` bits. -/
theorem rotlSpec_inj (n k a b : Nat) (ha : a < 2 ^ n) (hb : b < 2 ^ n)
    (h : rotlSpec n a k = rotlSpec n b k) : a = b := by
  apply Nat.eq_of_testBit_eq
  intro j
  by_cases hj : j < n
  · have hn : 0 < n := by omega
    have hk : k % n < n := Nat.mod_lt _ hn
    have hi : (j + k % n) % n < n := Nat.mod_lt _ hn
    have e : ((j + k % n) % n + n - k % n) % n = j := by
      by_cases hlt : j + k % n < n
      · rw [Nat.mod_eq_of_lt hlt]
        have : j + k % n + n - k % n = j + n := by omega
        rw [this, Nat.add_mod_right, Nat.mod_eq_of_lt hj]
      · have h1 : (j + k % n) % n = j + k % n - n := by
          rw [Nat.mod_eq_sub_mod (by omega), Nat.mod_eq_of_lt (by omega)]
        rw [h1]
        have : j + k % n - n + n - k % n = j := by omega
        rw [this, Nat.mod_eq_of_lt hj]
    have ta := rotlSpec_testBit n a k ((j + k % n) % n) ha
    have tb := rotlSpec_testBit n b k ((j + k % n) % n) hb
    rw [e] at ta tb
    simp only [hi, decide_True, Bool.true_and] at ta tb
    rw [← ta, ← tb, h]
  · have h1 : a.testBit j = false :=
      Nat.testBit_lt_two_pow (lt_of_lt_of_le ha (Nat.pow_le_pow_right (by decide) (by omega)))
    have h2 : b.testBit j = false :=
      Nat.testBit_lt_two_pow (lt_of_lt_of_le hb (Nat.pow_le_pow_right (by decide) (by omega)))
    rw [h1, h2]

theorem rotlSpec_zero (n k : Nat) : rotlSpec n 0 k = 0 := by
  simp [rotlSpec]

/-- Unsigned subtraction in natural-number form. -/
theorem usub_eq_nat (n a b : Nat) (hb : b ≤ 2 ^ n) : usub n a b = (a + 2 ^ n - b) % 2 ^ n := by
  unfold usub
  have h1 : ((a : Int) - (b : Int)) % (2 ^ n : Int) = (((a + 2 ^ n - b : Nat) : Int)) % (2 ^ n : Int) := by
    have : ((a + 2 ^ n - b : Nat) : Int) = (a : Int) - (b : Int) + (2 ^ n : Int) := by
      rw [Nat.cast_sub (by omega)]; push_cast; ring
    rw [this, Int.add_emod_self]
  rw [h1]
  have h2 : (((a + 2 ^ n - b : Nat) : Int)) % (2 ^ n : Int) = (((a + 2 ^ n - b) % 2 ^ n : Nat) : Int) := by
    push_cast; rfl
  rw [h2, Int.toNat_ofNat]

/-! ## Checkpointing a Mono32 -/

theorem and_mask29 (s : Nat) : s &&& 0x1fffffff = s % 2 ^ 29 :=
  Nat.and_pow_two_sub_one_eq_mod s 29

/-- C11, as stated, fails: the Mono32 seeded with 0 has state 1156979152, and the
Mono32 constructed from that value has state 1240216480. -/
theorem Mono32_checkpoint_counterexample :
    (Mono32.fromSeed 0).state = 1156979152
      ∧ (Mono32.fromSeed (Mono32.fromSeed 0).state).state = 1240216480
      ∧ Mono32.fromSeed (Mono32.fromSeed 0).state ≠ Mono32.fromSeed 0 := by
  refine ⟨rfl, rfl, ?_⟩
  intro h
  have h2 := congrArg Mono32.m_state h
  have e1 : (Mono32.fromSeed (Mono32.fromSeed 0).state).m_state = 1240216480 := rfl
  have e2 : (Mono32.fromSeed 0).m_state = 1156979152 := rfl
  rw [e1, e2] at h2
  exact absurd h2 (by decide)

/-- C11, amended: the only constructor of Mono32 that takes a value is the seeding
constructor, so constructing a Mono32 from g.state() yields the state
(g.state() & 0x1fffffff) + 1156979152, and this never equals the state of g. -/
theorem Mono32_checkpoint_reseeds (g : Mono32) :
    (Mono32.fromSeed g.state).state = (g.state &&& 0x1fffffff) + 1156979152
      ∧ (Mono32.fromSeed g.state).state ≠ g.state := by
  obtain ⟨s⟩ := g
  have hm : s &&& 0x1fffffff = s % 2 ^ 29 := and_mask29 _
  have hlt : s % 2 ^ 29 < 2 ^ 29 := Nat.mod_lt _ (by decide)
  have hmod : (1156979152 + (s &&& 0x1fffffff)) % 2 ^ 32 = (s &&& 0x1fffffff) + 1156979152 := by
    rw [Nat.mod_eq_of_lt (by omega), Nat.add_comm]
  have e : (Mono32.fromSeed (Mono32.state ⟨s⟩)).state = (s &&& 0x1fffffff) + 1156979152 := by
    simp only [Mono32.fromSeed, Mono32.state, hmod]
  refine ⟨e, ?_⟩
  rw [e, hm]
  simp only [Mono32.state]
  omega

/-! ## The seed expanders -/

/-- C13, as stated, fails for SplitMix32: no constant c makes next() replace every
state s by s + c modulo 2^32.  From state 0 the new state is 797384237 and from
state 1 it is 799048762, which differ by 1664525 and not by 1. -/
theorem SplitMix32_step_not_additive :
    ¬ ∃ c : Nat, ∀ s : Nat, s < 2 ^ 32 →
        (SplitMix32.next ⟨s⟩).2.m_state = (s + c) % 2 ^ 32 := by
  rintro ⟨c, h⟩
  have h0 := h 0 (by decide)
  have h1 := h 1 (by decide)
  have e0 : (SplitMix32.next ⟨0⟩).2.m_state = 797384237 := by decide
  have e1 : (SplitMix32.next ⟨1⟩).2.m_state = 799048762 := by decide
  rw [e0] at h0
  rw [e1] at h1
  omega

/-- C13, amended: SplitMix::next replaces the state s by s + 0x9e3779b97f4a7c15 modulo
2^64, an odd constant; SplitMix32::next replaces the state s by
1664525 * (s + 314159265) modulo 2^32, an affine step with an odd multiplier.  In both
the value returned is computed from the new state by xor-shift steps and
multiplications by odd constants only. -/
theorem expander_next_spec (s : Nat) :
    ((SplitMix.next ⟨s⟩).2.m_state = (s + 0x9e3779b97f4a7c15) % 2 ^ 64
        ∧ 0x9e3779b97f4a7c15 % 2 = 1
        ∧ (SplitMix.next ⟨s⟩).1 =
            xorShift 31 (mulStep 64 0x94d049bb133111eb (xorShift 27
              (mulStep 64 0xbf58476d1ce4e5b9 (xorShift 30 (SplitMix.next ⟨s⟩).2.m_state))))
        ∧ 0xbf58476d1ce4e5b9 % 2 = 1 ∧ 0x94d049bb133111eb % 2 = 1)
      ∧ ((SplitMix32.next ⟨s⟩).2.m_state = (1664525 * ((s + 314159265) % 2 ^ 32)) % 2 ^ 32
        ∧ 1664525 % 2 = 1
        ∧ (SplitMix32.next ⟨s⟩).1 =
            xorShift 15 (mulStep 32 0x1331c1eb (xorShift 13
              (mulStep 32 0x5ce4e5b9 (xorShift 15 (SplitMix32.next ⟨s⟩).2.m_state))))
        ∧ 0x5ce4e5b9 % 2 = 1 ∧ 0x1331c1eb % 2 = 1) := by
  refine ⟨⟨?_, by decide, rfl, by decide, by decide⟩, ⟨?_, by decide, rfl, by decide, by decide⟩⟩
  · simp only [SplitMix.next, Nat.add_comm s]
  · simp only [SplitMix32.next, Nat.add_comm s]

/-! ## The rotation counts -/

theorem ROTL_isSome_of_lt (n d k : Nat) (hk0 : 0 < k) (hkn : k < n) (hn : n ≤ 2 ^ 64) :
    (ROTL n d k).isSome = true := by
  have h1 : (n + 2 ^ 64 - k) % 2 ^ 64 = n - k := by
    have : n + 2 ^ 64 - k = (n - k) + 2 ^ 64 := by omega
    rw [this, Nat.add_mod_right, Nat.mod_eq_of_lt (by omega)]
  have h2 : n - k < n := by omega
  simp only [ROTL, shl, shr, h1, hkn, h2, if_true, Option.bind_eq_bind, Option.some_bind,
    Option.pure_def, Option.isSome_some]

/-- C14 (the code departs from the claim): every use of ROTL in Quad, Trio, Duo, DuoJr,
Quad32 and Mono32 has a count strictly between 0 and the width of its operand, and the
call has a result for every operand.  Trio32::next uses ROTL(m_state[2], 44) on a
32-bit operand: the left shift is by 44 and the right shift by 2^64 - 12, neither is
below 32, and the call has no result for any operand. -/
theorem ROTL_counts_checked (d : Nat) :
    (∀ u ∈ Quad.rotlUses ++ Trio.rotlUses ++ Duo.rotlUses ++ DuoJr.rotlUses
          ++ Quad32.rotlUses ++ Mono32.rotlUses,
        0 < u.2 ∧ u.2 < u.1 ∧ 0 < rotlRightCount u.1 u.2 ∧ rotlRightCount u.1 u.2 < u.1
          ∧ (ROTL u.1 d u.2).isSome = true)
      ∧ Trio32.rotlUses = [(32, 12), (32, 44)]
      ∧ ¬ (44 < 32)
      ∧ rotlRightCount 32 44 = 18446744073709551604
      ∧ ¬ (rotlRightCount 32 44 < 32)
      ∧ shl 32 d 44 = none
      ∧ shr 32 d (rotlRightCount 32 44) = none
      ∧ ROTL 32 d 44 = none
      ∧ Trio32.next ⟨(d, d, d)⟩ = none := by
  refine ⟨?_, rfl, by decide, by decide, by decide, ?_, ?_, ROTL_none_of_le 32 d 44 (by decide),
    Trio32_next_eq_none _⟩
  · intro u hu
    simp only [Quad.rotlUses, Trio.rotlUses, Duo.rotlUses, DuoJr.rotlUses, Quad32.rotlUses,
      Mono32.rotlUses, List.cons_append, List.nil_append, List.mem_cons, List.not_mem_nil, or_false] at hu
    rcases hu with h | h | h | h | h | h | h | h | h | h <;> subst h <;>
      exact ⟨by decide, by decide, by decide, by decide,
        ROTL_isSome_of_lt _ d _ (by decide) (by decide) (by decide)⟩
  · simp [shl]
  · simp [shr, rotlRightCount]

/-! ## The all-zero state -/

theorem run_fixed_point {G : Type} (step : G → Option (Nat × G)) (g : G)
    (h : step g = some (0, g)) (n : Nat) : run step n g = some (List.replicate n 0, g) := by
  induction n with
  | zero => rfl
  | succ n ih => simp only [run, h, ih, List.replicate_succ]

/-- C15: for Quad, Trio, Duo, DuoJr and Quad32 the all-zero state given to the
explicit-state constructor is a fixed point of the update: every call returns 0 and
has a result, so the first n outputs are n zeros and the state is all-zero
afterwards, for every n. -/
theorem zero_state_fixed_point (n : Nat) :
    (Quad.next (Quad.fromArray (0, 0, 0, 0)) = some (0, Quad.fromArray (0, 0, 0, 0))
        ∧ run Quad.next n (Quad.fromArray (0, 0, 0, 0))
            = some (List.replicate n 0, Quad.fromArray (0, 0, 0, 0)))
      ∧ (Trio.next (Trio.fromArray (0, 0, 0)) = some (0, Trio.fromArray (0, 0, 0))
        ∧ run Trio.next n (Trio.fromArray (0, 0, 0))
            = some (List.replicate n 0, Trio.fromArray (0, 0, 0)))
      ∧ (Duo.random (Duo.fromArray (0, 0)) = some (0, Duo.fromArray (0, 0))
        ∧ run Duo.random n (Duo.fromArray (0, 0))
            = some (List.replicate n 0, Duo.fromArray (0, 0)))
      ∧ (DuoJr.next (DuoJr.fromArray (0, 0)) = some (0, DuoJr.fromArray (0, 0))
        ∧ run DuoJr.next n (DuoJr.fromArray (0, 0))
            = some (List.replicate n 0, DuoJr.fromArray (0, 0)))
      ∧ (Quad32.next (Quad32.fromArray (0, 0, 0, 0)) = some (0, Quad32.fromArray (0, 0, 0, 0))
        ∧ run Quad32.next n (Quad32.fromArray (0, 0, 0, 0))
            = some (List.replicate n 0, Quad32.fromArray (0, 0, 0, 0)))
      ∧ Quad.fromWords 0 0 0 0 = Quad.fromArray (0, 0, 0, 0)
      ∧ Trio.fromWords 0 0 0 = Trio.fromArray (0, 0, 0)
      ∧ Duo.fromWords 0 0 = Duo.fromArray (0, 0)
      ∧ DuoJr.fromWords 0 0 = DuoJr.fromArray (0, 0)
      ∧ Quad32.fromWords 0 0 0 0 = Quad32.fromArray (0, 0, 0, 0) := by
  have h1 : Quad.next (Quad.fromArray (0, 0, 0, 0)) = some (0, Quad.fromArray (0, 0, 0, 0)) := by
    decide
  have h2 : Trio.next (Trio.fromArray (0, 0, 0)) = some (0, Trio.fromArray (0, 0, 0)) := by
    decide
  have h3 : Duo.random (Duo.fromArray (0, 0)) = some (0, Duo.fromArray (0, 0)) := by decide
  have h4 : DuoJr.next (DuoJr.fromArray (0, 0)) = some (0, DuoJr.fromArray (0, 0)) := by decide
  have h5 : Quad32.next (Quad32.fromArray (0, 0, 0, 0))
      = some (0, Quad32.fromArray (0, 0, 0, 0)) := by decide
  exact ⟨⟨h1, run_fixed_point _ _ h1 n⟩, ⟨h2, run_fixed_point _ _ h2 n⟩,
    ⟨h3, run_fixed_point _ _ h3 n⟩, ⟨h4, run_fixed_point _ _ h4 n⟩,
    ⟨h5, run_fixed_point _ _ h5 n⟩, rfl, rfl, rfl, rfl, rfl⟩

/-! ## Time-derived seeds -/

theorem shiftRight32_of_small (t : Int) (h0 : 0 ≤ t) (h1 : t < 2 ^ 32) :
    ((t >>> (32 : Nat)) % (2 ^ 32 : Int)).toNat = 0 := by
  have h : t >>> (32 : Nat) = 0 := by
    rw [Int.shiftRight_eq_div_pow]
    exact Int.ediv_eq_zero_of_lt h0 (by exact_mod_cast h1)
  rw [h]
  rfl

/-! ## Mono32 seeds -/

theorem Mono32_seed_wf (s : Nat) :
    (Mono32.fromSeed s).wf ∧ (Mono32.fromSeed s).m_state ≠ 0 := by
  have hm : s &&& 0x1fffffff ≤ 0x1fffffff := Nat.and_le_right
  have hmod : (1156979152 + (s &&& 0x1fffffff)) % 2 ^ 32 = 1156979152 + (s &&& 0x1fffffff) :=
    Nat.mod_eq_of_lt (by omega)
  simp only [Mono32.fromSeed, Mono32.wf, hmod]
  constructor <;> omega

theorem Mono32_next_nonzero (g : Mono32) (h : g.wf ∧ g.m_state ≠ 0) :
    ∃ o g1, Mono32.next g = some (o, g1) ∧ (g1.wf ∧ g1.m_state ≠ 0) := by
  obtain ⟨s⟩ := g
  obtain ⟨hs, hne⟩ := h
  refine ⟨_, _, Mono32_next_eq s hs, rotlSpec_lt 32 _ 12, ?_⟩
  intro hz
  have hz2 : rotlSpec 32 ((3611795771 * s) % 2 ^ 32) 12 = rotlSpec 32 0 12 := by
    rw [rotlSpec_zero]; exact hz
  have hm : (3611795771 * s) % 2 ^ 32 = 0 :=
    rotlSpec_inj 32 12 _ 0 (Nat.mod_lt _ (by decide)) (by decide) hz2
  have hs0 : s = 0 :=
    mul_odd_inj 32 3611795771 s 0 (by decide) hs (by decide) (by rw [hm, Nat.mul_zero]; rfl)
  exact hne hs0

/-- C17: for every seed s and every n, a Mono32 seeded with s, by the constructor or by
seed(s) on any instance, can be advanced n times and its state is non-zero
afterwards. -/
theorem Mono32_never_zero (s n : Nat) (g : Mono32) :
    (∃ os g1, run Mono32.next n (Mono32.fromSeed s) = some (os, g1) ∧ os.length = n
        ∧ g1.state ≠ 0)
      ∧ (∃ os g1, run Mono32.next n (Mono32.seed g s) = some (os, g1) ∧ os.length = n
        ∧ g1.state ≠ 0) := by
  have key := run_total Mono32.next (fun g => g.wf ∧ g.m_state ≠ 0) Mono32_next_nonzero n
    (Mono32.fromSeed s) (Mono32_seed_wf s)
  obtain ⟨os, g1, h1, h2, -, h3⟩ := key
  exact ⟨⟨os, g1, h1, h2, h3⟩, ⟨os, g1, h1, h2, h3⟩⟩

theorem Mono32_fromSeed_eq (s : Nat) : Mono32.fromSeed s = ⟨1156979152 + s % 2 ^ 29⟩ := by
  have hlt : s % 2 ^ 29 < 2 ^ 29 := Nat.mod_lt _ (by decide)
  have hmod : (1156979152 + s % 2 ^ 29) % 2 ^ 32 = 1156979152 + s % 2 ^ 29 :=
    Nat.mod_eq_of_lt (by omega)
  simp only [Mono32.fromSeed, and_mask29, hmod]

theorem Mono32_seed_eq_fromSeed (g : Mono32) (s : Nat) : Mono32.seed g s = Mono32.fromSeed s := by
  simp only [Mono32.seed, Mono32.fromSeed]

theorem Mono32_seeded_set :
    {g : Mono32 | ∃ s : Nat, s < 2 ^ 32 ∧ g = Mono32.fromSeed s}
      = ↑((Finset.range (2 ^ 29)).image (fun r => Mono32.mk (1156979152 + r))) := by
  ext g
  simp only [Set.mem_setOf_eq, Finset.coe_image, Finset.coe_range, Set.mem_image, Set.mem_Iio]
  constructor
  · rintro ⟨s, -, rfl⟩
    exact ⟨s % 2 ^ 29, Nat.mod_lt _ (by decide), (Mono32_fromSeed_eq s).symm⟩
  · rintro ⟨r, hr, rfl⟩
    refine ⟨r, by omega, ?_⟩
    rw [Mono32_fromSeed_eq, Nat.mod_eq_of_lt hr]

/-! ## Seed sensitivity -/

theorem mulStep_lt (n c z : Nat) : mulStep n c z < 2 ^ n :=
  Nat.mod_lt _ (Nat.two_pow_pos n)

theorem xorShift_lt (n k z : Nat) (hz : z < 2 ^ n) : xorShift k z < 2 ^ n :=
  xorShift_lt_two_pow n k z hz

theorem xorShift_injective (n k a b : Nat) (hk : 0 < k) (ha : a < 2 ^ n) (hb : b < 2 ^ n)
    (h : xorShift k a = xorShift k b) : a = b :=
  xorShift_inj n k a b hk ha hb h

theorem mulStep_injective (n c a b : Nat) (hc : c % 2 = 1) (ha : a < 2 ^ n) (hb : b < 2 ^ n)
    (h : mulStep n c a = mulStep n c b) : a = b := by
  unfold mulStep at h
  rw [Nat.mul_comm a c, Nat.mul_comm b c] at h
  exact mul_odd_inj n c a b hc ha hb h

theorem SplitMix_next_snd (e : SplitMix) :
    (SplitMix.next e).2.m_state = (0x9e3779b97f4a7c15 + e.m_state) % 2 ^ 64 := rfl

theorem SplitMix_next_fst (e : SplitMix) :
    (SplitMix.next e).1 =
      xorShift 31 (mulStep 64 0x94d049bb133111eb (xorShift 27
        (mulStep 64 0xbf58476d1ce4e5b9 (xorShift 30 (SplitMix.next e).2.m_state)))) := rfl

theorem SplitMix32_next_snd (e : SplitMix32) :
    (SplitMix32.next e).2.m_state = (1664525 * ((314159265 + e.m_state) % 2 ^ 32)) % 2 ^ 32 :=
  rfl

theorem SplitMix32_next_fst (e : SplitMix32) :
    (SplitMix32.next e).1 =
      xorShift 15 (mulStep 32 0x1331c1eb (xorShift 13
        (mulStep 32 0x5ce4e5b9 (xorShift 15 (SplitMix32.next e).2.m_state)))) := rfl

theorem SplitMix_next_snd_lt (e : SplitMix) : (SplitMix.next e).2.m_state < 2 ^ 64 := by
  rw [SplitMix_next_snd]; exact Nat.mod_lt _ (by decide)

theorem SplitMix32_next_snd_lt (e : SplitMix32) : (SplitMix32.next e).2.m_state < 2 ^ 32 := by
  rw [SplitMix32_next_snd]; exact Nat.mod_lt _ (by decide)

theorem SplitMix_next_fst_lt (e : SplitMix) : (SplitMix.next e).1 < 2 ^ 64 := by
  rw [SplitMix_next_fst]; exact xorShift_lt 64 31 _ (mulStep_lt 64 _ _)

theorem SplitMix32_next_fst_lt (e : SplitMix32) : (SplitMix32.next e).1 < 2 ^ 32 := by
  rw [SplitMix32_next_fst]; exact xorShift_lt 32 15 _ (mulStep_lt 32 _ _)

/-- The value returned by `SplitMix::next()` determines the state it was computed
from. -/
theorem SplitMix_next_fst_inj (a b : SplitMix) (h : (SplitMix.next a).1 = (SplitMix.next b).1) :
    (SplitMix.next a).2.m_state = (SplitMix.next b).2.m_state := by
  rw [SplitMix_next_fst, SplitMix_next_fst] at h
  have ha := SplitMix_next_snd_lt a
  have hb := SplitMix_next_snd_lt b
  generalize (SplitMix.next a).2.m_state = x at h ha
  generalize (SplitMix.next b).2.m_state = y at h hb
  have h1 := xorShift_injective 64 31 _ _ (by decide) (mulStep_lt 64 _ _) (mulStep_lt 64 _ _) h
  have h2 := mulStep_injective 64 _ _ _ (by decide)
    (xorShift_lt 64 27 _ (mulStep_lt 64 _ _)) (xorShift_lt 64 27 _ (mulStep_lt 64 _ _)) h1
  have h3 := xorShift_injective 64 27 _ _ (by decide) (mulStep_lt 64 _ _) (mulStep_lt 64 _ _) h2
  have h4 := mulStep_injective 64 _ _ _ (by decide)
    (xorShift_lt 64 30 _ ha) (xorShift_lt 64 30 _ hb) h3
  exact xorShift_injective 64 30 _ _ (by decide) ha hb h4

/-- The value returned by `SplitMix32::next()` determines the state it was computed
from. -/
theorem SplitMix32_next_fst_inj (a b : SplitMix32)
    (h : (SplitMix32.next a).1 = (SplitMix32.next b).1) :
    (SplitMix32.next a).2.m_state = (SplitMix32.next b).2.m_state := by
  rw [SplitMix32_next_fst, SplitMix32_next_fst] at h
  have ha := SplitMix32_next_snd_lt a
  have hb := SplitMix32_next_snd_lt b
  generalize (SplitMix32.next a).2.m_state = x at h ha
  generalize (SplitMix32.next b).2.m_state = y at h hb
  have h1 := xorShift_injective 32 15 _ _ (by decide) (mulStep_lt 32 _ _) (mulStep_lt 32 _ _) h
  have h2 := mulStep_injective 32 _ _ _ (by decide)
    (xorShift_lt 32 13 _ (mulStep_lt 32 _ _)) (xorShift_lt 32 13 _ (mulStep_lt 32 _ _)) h1
  have h3 := xorShift_injective 32 13 _ _ (by decide) (mulStep_lt 32 _ _) (mulStep_lt 32 _ _) h2
  have h4 := mulStep_injective 32 _ _ _ (by decide)
    (xorShift_lt 32 15 _ ha) (xorShift_lt 32 15 _ hb) h3
  exact xorShift_injective 32 15 _ _ (by decide) ha hb h4

/-- The state step of `SplitMix32::next()` is injective modulo 2^32. -/
theorem SplitMix32_state_step_inj (a b : Nat)
    (h : (1664525 * ((314159265 + a) % 2 ^ 32)) % 2 ^ 32
       = (1664525 * ((314159265 + b) % 2 ^ 32)) % 2 ^ 32) :
    (314159265 + a) % 2 ^ 32 = (314159265 + b) % 2 ^ 32 :=
  mul_odd_inj 32 1664525 _ _ (by decide) (Nat.mod_lt _ (by decide)) (Nat.mod_lt _ (by decide)) h

/-- Seeds s and s + 1 give different first and second expander outputs (SplitMix). -/
theorem SplitMix_adjacent_seeds (s : Nat) :
    (SplitMix.next ⟨s⟩).1 ≠ (SplitMix.next ⟨(s + 1) % 2 ^ 64⟩).1
      ∧ (SplitMix.next (SplitMix.next ⟨s⟩).2).1
          ≠ (SplitMix.next (SplitMix.next ⟨(s + 1) % 2 ^ 64⟩).2).1 := by
  constructor
  · intro h
    have h2 := SplitMix_next_fst_inj _ _ h
    simp only [SplitMix_next_snd] at h2
    omega
  · intro h
    have h2 := SplitMix_next_fst_inj _ _ h
    simp only [SplitMix_next_snd] at h2
    omega

/-- Seeds s and s + 1 give different first and second expander outputs (SplitMix32). -/
theorem SplitMix32_adjacent_seeds (s : Nat) :
    (SplitMix32.next ⟨s⟩).1 ≠ (SplitMix32.next ⟨(s + 1) % 2 ^ 32⟩).1
      ∧ (SplitMix32.next (SplitMix32.next ⟨s⟩).2).1
          ≠ (SplitMix32.next (SplitMix32.next ⟨(s + 1) % 2 ^ 32⟩).2).1 := by
  have hfirst : (SplitMix32.next ⟨s⟩).2.m_state ≠ (SplitMix32.next ⟨(s + 1) % 2 ^ 32⟩).2.m_state := by
    intro h
    simp only [SplitMix32_next_snd] at h
    have h3 := SplitMix32_state_step_inj _ _ h
    omega
  constructor
  · intro h
    exact hfirst (SplitMix32_next_fst_inj _ _ h)
  · intro h
    have h2 := SplitMix32_next_fst_inj _ _ h
    rw [SplitMix32_next_snd (SplitMix32.next ⟨s⟩).2,
      SplitMix32_next_snd (SplitMix32.next ⟨(s + 1) % 2 ^ 32⟩).2] at h2
    have h3 := SplitMix32_state_step_inj _ _ h2
    have la := SplitMix32_next_snd_lt ⟨s⟩
    have lb := SplitMix32_next_snd_lt ⟨(s + 1) % 2 ^ 32⟩
    generalize (SplitMix32.next ⟨s⟩).2.m_state = x at h3 hfirst la
    generalize (SplitMix32.next ⟨(s + 1) % 2 ^ 32⟩).2.m_state = y at h3 hfirst lb
    omega

theorem outputsOf_one {G : Type} (step : G → Option (Nat × G)) (g g1 : G) (o : Nat)
    (h : step g = some (o, g1)) : outputsOf step 1 g = some [o] := by
  simp only [outputsOf, run, h, Option.map_some']

theorem Quad_seed_first_output (q : Quad) (s : Nat) :
    outputsOf Quad.next 1 (Quad.seed q s) = some [(SplitMix.next (SplitMix.next ⟨s⟩).2).1] := by
  have e : Quad.seed q s = ⟨((SplitMix.next ⟨s⟩).1, (SplitMix.next (SplitMix.next ⟨s⟩).2).1,
      q.m_state.2.2.1, q.m_state.2.2.2)⟩ := rfl
  rw [e]
  exact outputsOf_one _ _ _ _ (Quad_next_eq _ _ _ _ (SplitMix_next_fst_lt _))

theorem Trio_seed_first_output (t : Trio) (s : Nat) :
    outputsOf Trio.next 1 (Trio.seed t s) = some [(SplitMix.next ⟨s⟩).1] := by
  have e : Trio.seed t s = ⟨((SplitMix.next ⟨s⟩).1, (SplitMix.next (SplitMix.next ⟨s⟩).2).1,
      t.m_state.2.2)⟩ := rfl
  rw [e]
  exact outputsOf_one _ _ _ _ (Trio_next_eq _ _ _)

theorem Duo_seed_first_output (d : Duo) (s : Nat) :
    outputsOf Duo.random 1 (Duo.seed d s) = some [(SplitMix.next ⟨s⟩).1] := by
  have e : Duo.seed d s
      = ⟨((SplitMix.next ⟨s⟩).1, (SplitMix.next (SplitMix.next ⟨s⟩).2).1)⟩ := rfl
  rw [e]
  exact outputsOf_one _ _ _ _ (Duo_random_eq _ _ (SplitMix_next_fst_lt _))

theorem DuoJr_seed_first_output (j : DuoJr) (s : Nat) :
    outputsOf DuoJr.next 1 (DuoJr.seed j s) = some [(SplitMix.next ⟨s⟩).1] := by
  have e : DuoJr.seed j s
      = ⟨((SplitMix.next ⟨s⟩).1, (SplitMix.next (SplitMix.next ⟨s⟩).2).1)⟩ := rfl
  rw [e]
  exact outputsOf_one _ _ _ _ (DuoJr_next_eq _ _)

theorem Quad32_seed_first_output (q : Quad32) (s : Nat) :
    outputsOf Quad32.next 1 (Quad32.seed q s)
      = some [(SplitMix32.next (SplitMix32.next ⟨s⟩).2).1] := by
  have e : Quad32.seed q s = ⟨((SplitMix32.next ⟨s⟩).1,
      (SplitMix32.next (SplitMix32.next ⟨s⟩).2).1, q.m_state.2.2.1, q.m_state.2.2.2)⟩ := rfl
  rw [e]
  exact outputsOf_one _ _ _ _ (Quad32_next_eq _ _ _ _ (SplitMix32_next_fst_lt _))

/-- Seed sensitivity where next() is defined: for Quad, Trio, Duo, DuoJr and Quad32,
for every seed s and every prior state, the instance seeded with s and the instance
seeded with s + 1 (modulo 2^width) return different first values. -/
theorem seed_sensitivity_defined (s : Nat) (q : Quad) (t : Trio) (d : Duo) (j : DuoJr)
    (q32 : Quad32) :
    outputsOf Quad.next 1 (Quad.seed q s) ≠ outputsOf Quad.next 1 (Quad.seed q ((s + 1) % 2 ^ 64))
      ∧ outputsOf Trio.next 1 (Trio.seed t s)
          ≠ outputsOf Trio.next 1 (Trio.seed t ((s + 1) % 2 ^ 64))
      ∧ outputsOf Duo.random 1 (Duo.seed d s)
          ≠ outputsOf Duo.random 1 (Duo.seed d ((s + 1) % 2 ^ 64))
      ∧ outputsOf DuoJr.next 1 (DuoJr.seed j s)
          ≠ outputsOf DuoJr.next 1 (DuoJr.seed j ((s + 1) % 2 ^ 64))
      ∧ outputsOf Quad32.next 1 (Quad32.seed q32 s)
          ≠ outputsOf Quad32.next 1 (Quad32.seed q32 ((s + 1) % 2 ^ 32))
      ∧ (outputsOf Quad.next 1 (Quad.seed q s)).isSome = true
      ∧ (outputsOf Trio.next 1 (Trio.seed t s)).isSome = true
      ∧ (outputsOf Duo.random 1 (Duo.seed d s)).isSome = true
      ∧ (outputsOf DuoJr.next 1 (DuoJr.seed j s)).isSome = true
      ∧ (outputsOf Quad32.next 1 (Quad32.seed q32 s)).isSome = true := by
  have h64 := SplitMix_adjacent_seeds s
  have h32 := SplitMix32_adjacent_seeds s
  simp only [Quad_seed_first_output, Trio_seed_first_output, Duo_seed_first_output,
    DuoJr_seed_first_output, Quad32_seed_first_output, Option.isSome_some, ne_eq,
    Option.some.injEq, List.cons.injEq, and_true]
  exact ⟨h64.2, h64.1, h64.1, h64.1, h32.2⟩

/-! ## The update step permutes the state space -/

/-- A step that is total and injective on a finite invariant set permutes that set:
every state of the set is the successor of a state of the set, and every state
returns to itself after a positive number of calls. -/
theorem step_permutes_finite {G : Type} (step : G → Option (Nat × G)) (P : G → Prop)
    (hfin : {g | P g}.Finite)
    (htot : ∀ g, P g → ∃ o g1, step g = some (o, g1) ∧ P g1)
    (hinj : ∀ g1 g2, P g1 → P g2 → stateAfter step g1 = stateAfter step g2 → g1 = g2) :
    Set.InjOn (stateAfter step) {g | P g}
      ∧ stateAfter step '' {g | P g} = some '' {g | P g}
      ∧ ∀ g, P g → ∃ p os, 0 < p ∧ run step p g = some (os, g) := by
  haveI : Finite {g // P g} := hfin.to_subtype
  have key : ∀ g : {g // P g}, ∃ g1 : {g // P g}, ∃ o, step g.1 = some (o, g1.1) := by
    intro g
    obtain ⟨o, g1, h, hp⟩ := htot g.1 g.2
    exact ⟨⟨g1, hp⟩, o, h⟩
  choose f hf using key
  have hsa : ∀ g : {g // P g}, stateAfter step g.1 = some (f g).1 := by
    intro g
    obtain ⟨o, h⟩ := hf g
    simp only [stateAfter, h, Option.map_some']
  have finj : Function.Injective f := by
    intro a b hab
    apply Subtype.ext
    apply hinj a.1 b.1 a.2 b.2
    rw [hsa a, hsa b, hab]
  have fsurj : Function.Surjective f := Finite.injective_iff_surjective.mp finj
  have hrun : ∀ (p : Nat) (g : {g // P g}), ∃ os, run step p g.1 = some (os, (f^[p] g).1) := by
    intro p
    induction p with
    | zero => intro g; exact ⟨[], rfl⟩
    | succ p ih =>
      intro g
      obtain ⟨o, h⟩ := hf g
      obtain ⟨os, h2⟩ := ih (f g)
      refine ⟨o :: os, ?_⟩
      simp only [run, h, h2, Function.iterate_succ_apply]
  refine ⟨?_, ?_, ?_⟩
  · intro a ha b hb hab
    exact hinj a b ha hb hab
  · ext v
    constructor
    · rintro ⟨g, hg, rfl⟩
      exact ⟨(f ⟨g, hg⟩).1, (f ⟨g, hg⟩).2, (hsa ⟨g, hg⟩).symm⟩
    · rintro ⟨g1, hg1, rfl⟩
      obtain ⟨g, hg⟩ := fsurj ⟨g1, hg1⟩
      refine ⟨g.1, g.2, ?_⟩
      rw [hsa g, hg]
  · intro g hg
    have hni : ¬ Function.Injective (fun n : Nat => f^[n] ⟨g, hg⟩) :=
      not_injective_infinite_finite _
    have hex : ∃ m n : Nat, m < n ∧ f^[m] ⟨g, hg⟩ = f^[n] ⟨g, hg⟩ := by
      by_contra hcon
      apply hni
      intro m n hmn
      simp only [] at hmn
      by_contra hne
      rcases Nat.lt_or_gt_of_ne hne with hlt | hgt
      · exact hcon ⟨m, n, hlt, hmn⟩
      · exact hcon ⟨n, m, hgt, hmn.symm⟩
    obtain ⟨m, n, hlt, he⟩ := hex
    have hsplit : f^[n] ⟨g, hg⟩ = f^[m] (f^[n - m] ⟨g, hg⟩) := by
      rw [← Function.iterate_add_apply]
      congr 1
      omega
    rw [hsplit] at he
    have hback := (finj.iterate m) he
    obtain ⟨os, hos⟩ := hrun (n - m) ⟨g, hg⟩
    refine ⟨n - m, os, by omega, ?_⟩
    rw [hos, ← hback]

theorem Quad_wf_finite : {g : Quad | g.wf}.Finite := by
  have hsub : {g : Quad | g.wf} ⊆ Quad.mk ''
      (Set.Iio (2 ^ 64) ×ˢ (Set.Iio (2 ^ 64) ×ˢ (Set.Iio (2 ^ 64) ×ˢ Set.Iio (2 ^ 64)))) := by
    rintro ⟨⟨w, x, y, z⟩⟩ ⟨hw, hx, hy, hz⟩
    exact ⟨(w, x, y, z), ⟨hw, hx, hy, hz⟩, rfl⟩
  exact Set.Finite.subset
    (((Set.finite_Iio _).prod ((Set.finite_Iio _).prod
      ((Set.finite_Iio _).prod (Set.finite_Iio _)))).image _) hsub

theorem Trio_wf_finite : {g : Trio | g.wf}.Finite := by
  have hsub : {g : Trio | g.wf} ⊆ Trio.mk ''
      (Set.Iio (2 ^ 64) ×ˢ (Set.Iio (2 ^ 64) ×ˢ Set.Iio (2 ^ 64))) := by
    rintro ⟨⟨x, y, z⟩⟩ ⟨hx, hy, hz⟩
    exact ⟨(x, y, z), ⟨hx, hy, hz⟩, rfl⟩
  exact Set.Finite.subset
    (((Set.finite_Iio _).prod ((Set.finite_Iio _).prod (Set.finite_Iio _))).image _) hsub

theorem Duo_wf_finite : {g : Duo | g.wf}.Finite := by
  have hsub : {g : Duo | g.wf} ⊆ Duo.mk '' (Set.Iio (2 ^ 64) ×ˢ Set.Iio (2 ^ 64)) := by
    rintro ⟨⟨x, y⟩⟩ ⟨hx, hy⟩
    exact ⟨(x, y), ⟨hx, hy⟩, rfl⟩
  exact Set.Finite.subset (((Set.finite_Iio _).prod (Set.finite_Iio _)).image _) hsub

theorem DuoJr_wf_finite : {g : DuoJr | g.wf}.Finite := by
  have hsub : {g : DuoJr | g.wf} ⊆ DuoJr.mk '' (Set.Iio (2 ^ 64) ×ˢ Set.Iio (2 ^ 64)) := by
    rintro ⟨⟨x, y⟩⟩ ⟨hx, hy⟩
    exact ⟨(x, y), ⟨hx, hy⟩, rfl⟩
  exact Set.Finite.subset (((Set.finite_Iio _).prod (Set.finite_Iio _)).image _) hsub

theorem Quad32_wf_finite : {g : Quad32 | g.wf}.Finite := by
  have hsub : {g : Quad32 | g.wf} ⊆ Quad32.mk ''
      (Set.Iio (2 ^ 32) ×ˢ (Set.Iio (2 ^ 32) ×ˢ (Set.Iio (2 ^ 32) ×ˢ Set.Iio (2 ^ 32)))) := by
    rintro ⟨⟨w, x, y, z⟩⟩ ⟨hw, hx, hy, hz⟩
    exact ⟨(w, x, y, z), ⟨hw, hx, hy, hz⟩, rfl⟩
  exact Set.Finite.subset
    (((Set.finite_Iio _).prod ((Set.finite_Iio _).prod
      ((Set.finite_Iio _).prod (Set.finite_Iio _)))).image _) hsub

theorem Mono32_wf_finite : {g : Mono32 | g.wf}.Finite := by
  have hsub : {g : Mono32 | g.wf} ⊆ Mono32.mk '' Set.Iio (2 ^ 32) := by
    rintro ⟨s⟩ hs
    exact ⟨s, hs, rfl⟩
  exact Set.Finite.subset ((Set.finite_Iio _).image _) hsub

theorem Quad_next_inj (g1 g2 : Quad) (h1 : g1.wf) (h2 : g2.wf)
    (h : stateAfter Quad.next g1 = stateAfter Quad.next g2) : g1 = g2 := by
  obtain ⟨⟨w1, x1, y1, z1⟩⟩ := g1
  obtain ⟨⟨w2, x2, y2, z2⟩⟩ := g2
  obtain ⟨hw1, hx1, hy1, hz1⟩ := h1
  obtain ⟨hw2, hx2, hy2, hz2⟩ := h2
  simp only [] at hw1 hx1 hy1 hz1 hw2 hx2 hy2 hz2
  simp only [stateAfter, Quad_next_eq _ _ _ _ hw1, Quad_next_eq _ _ _ _ hw2, Option.map_some',
    Option.some.injEq, Quad.mk.injEq, Prod.mk.injEq] at h
  obtain ⟨e0, e1, e2, e3⟩ := h
  have hz : z1 = z2 := mul_odd_inj 64 _ z1 z2 (by decide) hz1 hz2 e0
  subst hz
  have hr : rotlSpec 64 w1 52 = rotlSpec 64 w2 52 := by
    have l1 := rotlSpec_lt 64 w1 52
    have l2 := rotlSpec_lt 64 w2 52
    generalize rotlSpec 64 w1 52 = r1 at e1 l1
    generalize rotlSpec 64 w2 52 = r2 at e1 l2
    omega
  have hw : w1 = w2 := rotlSpec_inj 64 52 w1 w2 hw1 hw2 hr
  subst hw
  have hyw := rotlSpec_inj 64 19 _ _ (add_mod_lt 64 y1 w1) (add_mod_lt 64 y2 w1) e3
  have hy : y1 = y2 := by omega
  subst hy
  rw [usub_eq_nat 64 y1 x1 (by omega), usub_eq_nat 64 y1 x2 (by omega)] at e2
  have hx : x1 = x2 := by omega
  subst hx
  rfl

theorem Trio_next_inj (g1 g2 : Trio) (h1 : g1.wf) (h2 : g2.wf)
    (h : stateAfter Trio.next g1 = stateAfter Trio.next g2) : g1 = g2 := by
  obtain ⟨⟨x1, y1, z1⟩⟩ := g1
  obtain ⟨⟨x2, y2, z2⟩⟩ := g2
  obtain ⟨hx1, hy1, hz1⟩ := h1
  obtain ⟨hx2, hy2, hz2⟩ := h2
  simp only [] at hx1 hy1 hz1 hx2 hy2 hz2
  simp only [stateAfter, Trio_next_eq, Option.map_some', Option.some.injEq, Trio.mk.injEq,
    Prod.mk.injEq] at h
  obtain ⟨e0, e1, e2⟩ := h
  have hz : z1 = z2 := mul_odd_inj 64 _ z1 z2 (by decide) hz1 hz2 e0
  subst hz
  have e2b := rotlSpec_inj 64 44 _ _ (usub_lt 64 z1 y1) (usub_lt 64 z1 y2) e2
  rw [usub_eq_nat 64 z1 y1 (by omega), usub_eq_nat 64 z1 y2 (by omega)] at e2b
  have hy : y1 = y2 := by omega
  subst hy
  have e1b := rotlSpec_inj 64 12 _ _ (usub_lt 64 y1 x1) (usub_lt 64 y1 x2) e1
  rw [usub_eq_nat 64 y1 x1 (by omega), usub_eq_nat 64 y1 x2 (by omega)] at e1b
  have hx : x1 = x2 := by omega
  subst hx
  rfl

theorem Duo_random_inj (g1 g2 : Duo) (h1 : g1.wf) (h2 : g2.wf)
    (h : stateAfter Duo.random g1 = stateAfter Duo.random g2) : g1 = g2 := by
  obtain ⟨⟨x1, y1⟩⟩ := g1
  obtain ⟨⟨x2, y2⟩⟩ := g2
  obtain ⟨hx1, hy1⟩ := h1
  obtain ⟨hx2, hy2⟩ := h2
  simp only [] at hx1 hy1 hx2 hy2
  simp only [stateAfter, Duo_random_eq _ _ hy1, Duo_random_eq _ _ hy2, Option.map_some',
    Option.some.injEq, Duo.mk.injEq, Prod.mk.injEq] at h
  obtain ⟨e0, e1⟩ := h
  have hy : y1 = y2 := mul_odd_inj 64 _ y1 y2 (by decide) hy1 hy2 e0
  subst hy
  rw [usub_eq_nat 64 _ x1 (by omega), usub_eq_nat 64 _ x2 (by omega)] at e1
  have la := add_mod_lt 64 (rotlSpec 64 y1 36) (rotlSpec 64 y1 15)
  generalize (rotlSpec 64 y1 36 + rotlSpec 64 y1 15) % 2 ^ 64 = a at e1 la
  have hx : x1 = x2 := by omega
  subst hx
  rfl

theorem DuoJr_next_inj (g1 g2 : DuoJr) (h1 : g1.wf) (h2 : g2.wf)
    (h : stateAfter DuoJr.next g1 = stateAfter DuoJr.next g2) : g1 = g2 := by
  obtain ⟨⟨x1, y1⟩⟩ := g1
  obtain ⟨⟨x2, y2⟩⟩ := g2
  obtain ⟨hx1, hy1⟩ := h1
  obtain ⟨hx2, hy2⟩ := h2
  simp only [] at hx1 hy1 hx2 hy2
  simp only [stateAfter, DuoJr_next_eq, Option.map_some', Option.some.injEq, DuoJr.mk.injEq,
    Prod.mk.injEq] at h
  obtain ⟨e0, e1⟩ := h
  have hy : y1 = y2 := mul_odd_inj 64 _ y1 y2 (by decide) hy1 hy2 e0
  subst hy
  have e1b := rotlSpec_inj 64 27 _ _ (usub_lt 64 y1 x1) (usub_lt 64 y1 x2) e1
  rw [usub_eq_nat 64 y1 x1 (by omega), usub_eq_nat 64 y1 x2 (by omega)] at e1b
  have hx : x1 = x2 := by omega
  subst hx
  rfl

theorem Quad32_next_inj (g1 g2 : Quad32) (h1 : g1.wf) (h2 : g2.wf)
    (h : stateAfter Quad32.next g1 = stateAfter Quad32.next g2) : g1 = g2 := by
  obtain ⟨⟨w1, x1, y1, z1⟩⟩ := g1
  obtain ⟨⟨w2, x2, y2, z2⟩⟩ := g2
  obtain ⟨hw1, hx1, hy1, hz1⟩ := h1
  obtain ⟨hw2, hx2, hy2, hz2⟩ := h2
  simp only [] at hw1 hx1 hy1 hz1 hw2 hx2 hy2 hz2
  simp only [stateAfter, Quad32_next_eq _ _ _ _ hw1, Quad32_next_eq _ _ _ _ hw2,
    Option.map_some', Option.some.injEq, Quad32.mk.injEq, Prod.mk.injEq] at h
  obtain ⟨e0, e1, e2, e3⟩ := h
  have hz : z1 = z2 := mul_odd_inj 32 _ z1 z2 (by decide) hz1 hz2 e0
  subst hz
  have hr : rotlSpec 32 w1 26 = rotlSpec 32 w2 26 := by
    have l1 := rotlSpec_lt 32 w1 26
    have l2 := rotlSpec_lt 32 w2 26
    generalize rotlSpec 32 w1 26 = r1 at e1 l1
    generalize rotlSpec 32 w2 26 = r2 at e1 l2
    omega
  have hw : w1 = w2 := rotlSpec_inj 32 26 w1 w2 hw1 hw2 hr
  subst hw
  have hyw := rotlSpec_inj 32 9 _ _ (add_mod_lt 32 y1 w1) (add_mod_lt 32 y2 w1) e3
  have hy : y1 = y2 := by omega
  subst hy
  rw [usub_eq_nat 32 y1 x1 (by omega), usub_eq_nat 32 y1 x2 (by omega)] at e2
  have hx : x1 = x2 := by omega
  subst hx
  rfl

theorem Mono32_next_inj (g1 g2 : Mono32) (h1 : g1.wf) (h2 : g2.wf)
    (h : stateAfter Mono32.next g1 = stateAfter Mono32.next g2) : g1 = g2 := by
  obtain ⟨s1⟩ := g1
  obtain ⟨s2⟩ := g2
  simp only [Mono32.wf] at h1 h2
  simp only [stateAfter, Mono32_next_eq _ h1, Mono32_next_eq _ h2, Option.map_some',
    Option.some.injEq, Mono32.mk.injEq] at h
  have hm := rotlSpec_inj 32 12 _ _ (Nat.mod_lt _ (by decide)) (Nat.mod_lt _ (by decide)) h
  have hs : s1 = s2 := mul_odd_inj 32 _ s1 s2 (by decide) h1 h2 hm
  subst hs
  rfl

/-- C16: the state transition of each of Quad::next, Trio::next, Duo::random,
DuoJr::next, Quad32::next and Mono32::next is a bijection of the state space of the
variant (all vectors of words of its width): it is injective there, its image is the
whole state space, and every state returns to itself after a positive number of
calls.  The multipliers 15241094284759029579, 3323815723 and 3611795771 are odd. -/
theorem next_bijective_on_states :
    (Set.InjOn (stateAfter Quad.next) {g | g.wf}
        ∧ stateAfter Quad.next '' {g | g.wf} = some '' {g | g.wf}
        ∧ ∀ g : Quad, g.wf → ∃ p os, 0 < p ∧ run Quad.next p g = some (os, g))
      ∧ (Set.InjOn (stateAfter Trio.next) {g | g.wf}
        ∧ stateAfter Trio.next '' {g | g.wf} = some '' {g | g.wf}
        ∧ ∀ g : Trio, g.wf → ∃ p os, 0 < p ∧ run Trio.next p g = some (os, g))
      ∧ (Set.InjOn (stateAfter Duo.random) {g | g.wf}
        ∧ stateAfter Duo.random '' {g | g.wf} = some '' {g | g.wf}
        ∧ ∀ g : Duo, g.wf → ∃ p os, 0 < p ∧ run Duo.random p g = some (os, g))
      ∧ (Set.InjOn (stateAfter DuoJr.next) {g | g.wf}
        ∧ stateAfter DuoJr.next '' {g | g.wf} = some '' {g | g.wf}
        ∧ ∀ g : DuoJr, g.wf → ∃ p os, 0 < p ∧ run DuoJr.next p g = some (os, g))
      ∧ (Set.InjOn (stateAfter Quad32.next) {g | g.wf}
        ∧ stateAfter Quad32.next '' {g | g.wf} = some '' {g | g.wf}
        ∧ ∀ g : Quad32, g.wf → ∃ p os, 0 < p ∧ run Quad32.next p g = some (os, g))
      ∧ (Set.InjOn (stateAfter Mono32.next) {g | g.wf}
        ∧ stateAfter Mono32.next '' {g | g.wf} = some '' {g | g.wf}
        ∧ ∀ g : Mono32, g.wf → ∃ p os, 0 < p ∧ run Mono32.next p g = some (os, g))
      ∧ 15241094284759029579 % 2 = 1 ∧ 3323815723 % 2 = 1 ∧ 3611795771 % 2 = 1 :=
  ⟨step_permutes_finite Quad.next Quad.wf Quad_wf_finite Quad_next_wf Quad_next_inj,
    step_permutes_finite Trio.next Trio.wf Trio_wf_finite Trio_next_wf Trio_next_inj,
    step_permutes_finite Duo.random Duo.wf Duo_wf_finite Duo_random_wf Duo_random_inj,
    step_permutes_finite DuoJr.next DuoJr.wf DuoJr_wf_finite DuoJr_next_wf DuoJr_next_inj,
    step_permutes_finite Quad32.next Quad32.wf Quad32_wf_finite Quad32_next_wf Quad32_next_inj,
    step_permutes_finite Mono32.next Mono32.wf Mono32_wf_finite Mono32_next_wf Mono32_next_inj,
    by decide, by decide, by decide⟩

/-- The constructor `Mono32()` computes a seed and drops it: the state of the object
is whatever the unassigned member held. -/
theorem Mono32_fromTime_state (t : Int) (uninit : Nat) :
    (Mono32.fromTime t uninit).state = uninit := rfl

/-! ## Telling Mono32 streams apart -/

/-- The arithmetic core of telling two Mono32 states apart.  If the states differ by
`d`, fewer than 2^16 apart, and the states after one call are again fewer than 2^16
apart (difference `4096 * e + h`), then `d` is 0 or one of two values, and the new
difference is one of four. -/
theorem Mono32_diff_core (d e h k : Int)
    (heq : 3611795771 * d = e + 1048576 * h + 4294967296 * k)
    (hd1 : -65535 ≤ d) (hd2 : d ≤ 65535) (he1 : -16 ≤ e) (he2 : e ≤ 16)
    (hh1 : -4095 ≤ h) (hh2 : h ≤ 4095) :
    d = 0 ∨ ((d = 53183 ∨ d = -53183)
      ∧ (4096 * e + h = 18589 ∨ 4096 * e + h = -18589 ∨ 4096 * e + h = 22685
          ∨ 4096 * e + h = -22685)) := by
  obtain ⟨Y, hY⟩ : ∃ Y : Int, d = 430067 * e + 1048576 * Y :=
    ⟨430067 * (h + 4096 * k) - 1481355831 * d, by linear_combination 430067 * heq⟩
  interval_cases e <;> first
    | (exfalso; clear heq hh1 hh2; omega)
    | (left; clear heq hh1 hh2; omega)
    | (have hd : d = 53183 := by clear heq hh1 hh2; omega
       subst hd
       right
       omega)
    | (have hd : d = -53183 := by clear heq hh1 hh2; omega
       subst hd
       right
       omega)

theorem Trio32_next_eq_parts (g : Trio32) :
    Trio32.next g = (Trio32.nextParts g).2.map (fun st => ((Trio32.nextParts g).1, st)) := by
  obtain ⟨⟨x, y, z⟩⟩ := g
  simp only [Trio32.next, Trio32.nextParts, Option.bind_eq_bind, Option.pure_def]
  cases ROTL 32 (usub 32 y x) 12 <;> cases ROTL 32 (usub 32 z y) 44 <;> rfl

theorem rotlSpec32_12_arith (p : Nat) (hp : p < 2 ^ 32) :
    rotlSpec 32 p 12 = (p % 2 ^ 20) * 2 ^ 12 + p / 2 ^ 20 := by
  have h1 : p >>> 20 < 2 ^ 12 := by
    rw [Nat.shiftRight_eq_div_pow]; omega
  have h2 : (p <<< 12) ||| (p >>> 20) = 2 ^ 12 * p + p >>> 20 := by
    rw [Nat.mul_add_lt_is_or h1 p, Nat.shiftLeft_eq, Nat.mul_comm]
  have e : rotlSpec 32 p 12 = ((p <<< 12) ||| (p >>> 20)) % 2 ^ 32 := rfl
  rw [e, h2, Nat.shiftRight_eq_div_pow]
  omega

theorem Mono32_advance_lt (s : Nat) : Mono32.advance s < 2 ^ 32 := by
  unfold Mono32.advance
  omega

theorem Mono32_next_eq_arith (s : Nat) (hs : s < 2 ^ 32) :
    Mono32.next ⟨s⟩ = some (s / 2 ^ 16, ⟨Mono32.advance s⟩) := by
  rw [Mono32_next_eq s hs, rotlSpec32_12_arith _ (Nat.mod_lt _ (by decide))]
  rfl

/-- Two Mono32 states fewer than 2^16 apart whose successors return the same value
are equal or differ by 53183, and then the successors differ by one of four values. -/
theorem Mono32_diff_step (x y : Nat)
    (hd1 : -65535 ≤ (x : Int) - (y : Int)) (hd2 : (x : Int) - (y : Int) ≤ 65535)
    (h1 : Mono32.advance x / 2 ^ 16 = Mono32.advance y / 2 ^ 16) :
    x = y ∨ (((x : Int) - (y : Int) = 53183 ∨ (x : Int) - (y : Int) = -53183)
      ∧ ((Mono32.advance x : Int) - (Mono32.advance y : Int) = 18589
          ∨ (Mono32.advance x : Int) - (Mono32.advance y : Int) = -18589
          ∨ (Mono32.advance x : Int) - (Mono32.advance y : Int) = 22685
          ∨ (Mono32.advance x : Int) - (Mono32.advance y : Int) = -22685)) := by
  unfold Mono32.advance at h1 ⊢
  have ea : 3611795771 * x = 2 ^ 32 * (3611795771 * x / 2 ^ 32) + 3611795771 * x % 2 ^ 32 :=
    (Nat.div_add_mod _ _).symm
  have eb : 3611795771 * y = 2 ^ 32 * (3611795771 * y / 2 ^ 32) + 3611795771 * y % 2 ^ 32 :=
    (Nat.div_add_mod _ _).symm
  have la : 3611795771 * x % 2 ^ 32 < 2 ^ 32 := Nat.mod_lt _ (by decide)
  have lb : 3611795771 * y % 2 ^ 32 < 2 ^ 32 := Nat.mod_lt _ (by decide)
  generalize 3611795771 * x / 2 ^ 32 = qa at ea
  generalize 3611795771 * y / 2 ^ 32 = qb at eb
  generalize 3611795771 * x % 2 ^ 32 = pa at ea la h1 ⊢
  generalize 3611795771 * y % 2 ^ 32 = pb at eb lb h1 ⊢
  have fa : pa = 2 ^ 20 * (pa / 2 ^ 20) + pa % 2 ^ 20 := (Nat.div_add_mod _ _).symm
  have fb : pb = 2 ^ 20 * (pb / 2 ^ 20) + pb % 2 ^ 20 := (Nat.div_add_mod _ _).symm
  have ha : pa / 2 ^ 20 < 4096 := by omega
  have hb : pb / 2 ^ 20 < 4096 := by omega
  have ma : pa % 2 ^ 20 < 2 ^ 20 := Nat.mod_lt _ (by decide)
  have mb : pb % 2 ^ 20 < 2 ^ 20 := Nat.mod_lt _ (by decide)
  generalize pa / 2 ^ 20 = ua at fa ha h1 ⊢
  generalize pb / 2 ^ 20 = ub at fb hb h1 ⊢
  generalize pa % 2 ^ 20 = va at fa ma h1 ⊢
  generalize pb % 2 ^ 20 = vb at fb mb h1 ⊢
  have heq : 3611795771 * ((x : Int) - (y : Int))
      = ((va : Int) - (vb : Int)) + 1048576 * ((ua : Int) - (ub : Int))
        + 4294967296 * ((qa : Int) - (qb : Int)) := by
    have ea2 : (3611795771 : Int) * x = 4294967296 * qa + (1048576 * ua + va) := by
      rw [fa] at ea; exact_mod_cast ea
    have eb2 : (3611795771 : Int) * y = 4294967296 * qb + (1048576 * ub + vb) := by
      rw [fb] at eb; exact_mod_cast eb
    linear_combination ea2 - eb2
  have he : -16 ≤ (va : Int) - (vb : Int) ∧ (va : Int) - (vb : Int) ≤ 16 := by
    clear heq ea eb fa fb la lb hd1 hd2
    omega
  have hh : -4095 ≤ (ua : Int) - (ub : Int) ∧ (ua : Int) - (ub : Int) ≤ 4095 := by
    clear heq ea eb fa fb la lb hd1 hd2 h1
    omega
  have key := Mono32_diff_core _ _ _ _ heq hd1 hd2 he.1 he.2 hh.1 hh.2
  rcases key with h0 | ⟨hd, hv⟩
  · left
    omega
  · right
    refine ⟨hd, ?_⟩
    push_cast
    clear heq ea eb fa fb la lb hd1 hd2 h1 hd
    omega

theorem Mono32_outputs_three (s : Nat) (hs : s < 2 ^ 32) :
    outputsOf Mono32.next 3 ⟨s⟩
      = some [s / 2 ^ 16, Mono32.advance s / 2 ^ 16,
          Mono32.advance (Mono32.advance s) / 2 ^ 16] := by
  simp only [outputsOf, run, Mono32_next_eq_arith s hs,
    Mono32_next_eq_arith _ (Mono32_advance_lt s),
    Mono32_next_eq_arith _ (Mono32_advance_lt (Mono32.advance s)), Option.map_some']

/-- Two different 32-bit Mono32 states return different values within the first three
calls of next(). -/
theorem Mono32_outputs_three_inj (a b : Nat) (ha : a < 2 ^ 32) (hb : b < 2 ^ 32)
    (h : outputsOf Mono32.next 3 ⟨a⟩ = outputsOf Mono32.next 3 ⟨b⟩) : a = b := by
  rw [Mono32_outputs_three a ha, Mono32_outputs_three b hb] at h
  simp only [Option.some.injEq, List.cons.injEq, and_true] at h
  obtain ⟨h0, h1, h2⟩ := h
  have hd1 : -65535 ≤ (a : Int) - (b : Int) := by omega
  have hd2 : (a : Int) - (b : Int) ≤ 65535 := by omega
  rcases Mono32_diff_step a b hd1 hd2 h1 with hab | ⟨-, hv⟩
  · exact hab
  · exfalso
    have hd1' : -65535 ≤ (Mono32.advance a : Int) - (Mono32.advance b : Int) := by
      clear h0 h1 h2 hd1 hd2; omega
    have hd2' : (Mono32.advance a : Int) - (Mono32.advance b : Int) ≤ 65535 := by
      clear h0 h1 h2 hd1 hd2; omega
    rcases Mono32_diff_step _ _ hd1' hd2' h2 with hab | ⟨hd, -⟩
    · clear h0 h1 h2 hd1 hd2; omega
    · clear h0 h1 h2 hd1 hd2; omega

theorem Mono32_seeded_streams :
    {σ : Nat → Option (List Nat) |
        ∃ s : Nat, s < 2 ^ 32 ∧ σ = streamOf Mono32.next (Mono32.fromSeed s)}
      = (fun r => streamOf Mono32.next (Mono32.mk (1156979152 + r)))
          '' (↑(Finset.range (2 ^ 29)) : Set Nat) := by
  ext σ
  simp only [Set.mem_setOf_eq, Finset.coe_range, Set.mem_image, Set.mem_Iio]
  constructor
  · rintro ⟨s, -, rfl⟩
    exact ⟨s % 2 ^ 29, Nat.mod_lt _ (by decide), by rw [Mono32_fromSeed_eq s]⟩
  · rintro ⟨r, hr, rfl⟩
    refine ⟨r, by omega, ?_⟩
    rw [Mono32_fromSeed_eq, Nat.mod_eq_of_lt hr]

theorem Mono32_stream_eq_iff (s t : Nat) :
    streamOf Mono32.next (Mono32.fromSeed s) = streamOf Mono32.next (Mono32.fromSeed t)
      ↔ outputsOf Mono32.next 3 (Mono32.fromSeed s) = outputsOf Mono32.next 3 (Mono32.fromSeed t) := by
  constructor
  · intro h
    exact congrFun h 3
  · intro h
    have hs : s % 2 ^ 29 < 2 ^ 29 := Nat.mod_lt _ (by decide)
    have ht : t % 2 ^ 29 < 2 ^ 29 := Nat.mod_lt _ (by decide)
    rw [Mono32_fromSeed_eq s, Mono32_fromSeed_eq t] at h
    have e := Mono32_outputs_three_inj _ _ (by omega) (by omega) h
    rw [Mono32_fromSeed_eq s, Mono32_fromSeed_eq t, e]

/-- C18: Mono32 uses only the low 29 bits of its seed.  Two seeds give the same
generator exactly when they agree modulo 2^29, seeds that differ modulo 2^29 give
different states, a seed and its residue modulo 2^29 give the same first n outputs
for every n, and the 32-bit seeds produce exactly 2^29 distinct seeded generators.
Seeds that differ modulo 2^29 also give different output streams, already different
within the first three calls, so the 32-bit seeds produce exactly 2^29 distinct
output streams.  Three calls are needed: seeds 0 and 53183 differ modulo 2^29 and
return the same first two values. -/
theorem Mono32_seed_low_bits (s t n : Nat) (g g2 : Mono32) :
    (Mono32.fromSeed s = Mono32.fromSeed t ↔ s % 2 ^ 29 = t % 2 ^ 29)
      ∧ (Mono32.seed g s = Mono32.seed g2 t ↔ s % 2 ^ 29 = t % 2 ^ 29)
      ∧ ((Mono32.fromSeed s).state = (Mono32.fromSeed t).state ↔ s % 2 ^ 29 = t % 2 ^ 29)
      ∧ Mono32.fromSeed s = Mono32.fromSeed (s % 2 ^ 29)
      ∧ (∃ os, os.length = n ∧ outputsOf Mono32.next n (Mono32.fromSeed s) = some os
          ∧ outputsOf Mono32.next n (Mono32.fromSeed (s % 2 ^ 29)) = some os
          ∧ outputsOf Mono32.next n (Mono32.seed g s) = some os)
      ∧ {g : Mono32 | ∃ s : Nat, s < 2 ^ 32 ∧ g = Mono32.fromSeed s}.ncard = 2 ^ 29
      ∧ (outputsOf Mono32.next 3 (Mono32.fromSeed s) = outputsOf Mono32.next 3 (Mono32.fromSeed t)
          ↔ s % 2 ^ 29 = t % 2 ^ 29)
      ∧ (streamOf Mono32.next (Mono32.fromSeed s) = streamOf Mono32.next (Mono32.fromSeed t)
          ↔ s % 2 ^ 29 = t % 2 ^ 29)
      ∧ (streamOf Mono32.next (Mono32.seed g s) = streamOf Mono32.next (Mono32.seed g2 t)
          ↔ s % 2 ^ 29 = t % 2 ^ 29)
      ∧ {σ : Nat → Option (List Nat) |
          ∃ s : Nat, s < 2 ^ 32 ∧ σ = streamOf Mono32.next (Mono32.fromSeed s)}.ncard = 2 ^ 29
      ∧ outputsOf Mono32.next 2 (Mono32.fromSeed 0) = some [17654, 15407]
      ∧ outputsOf Mono32.next 2 (Mono32.fromSeed 53183) = some [17654, 15407]
      ∧ outputsOf Mono32.next 3 (Mono32.fromSeed 0) = some [17654, 15407, 38389]
      ∧ outputsOf Mono32.next 3 (Mono32.fromSeed 53183) = some [17654, 15407, 64904] := by
  have hiff : Mono32.fromSeed s = Mono32.fromSeed t ↔ s % 2 ^ 29 = t % 2 ^ 29 := by
    rw [Mono32_fromSeed_eq, Mono32_fromSeed_eq]
    constructor
    · intro h
      have h2 := congrArg Mono32.m_state h
      simp only [] at h2
      omega
    · intro h
      rw [h]
  have hres : Mono32.fromSeed s = Mono32.fromSeed (s % 2 ^ 29) := by
    rw [Mono32_fromSeed_eq, Mono32_fromSeed_eq (s % 2 ^ 29), Nat.mod_mod]
  have h3 : outputsOf Mono32.next 3 (Mono32.fromSeed s)
      = outputsOf Mono32.next 3 (Mono32.fromSeed t) ↔ s % 2 ^ 29 = t % 2 ^ 29 := by
    constructor
    · intro h
      have hs : s % 2 ^ 29 < 2 ^ 29 := Nat.mod_lt _ (by decide)
      have ht : t % 2 ^ 29 < 2 ^ 29 := Nat.mod_lt _ (by decide)
      rw [Mono32_fromSeed_eq s, Mono32_fromSeed_eq t] at h
      have e := Mono32_outputs_three_inj _ _ (by omega) (by omega) h
      omega
    · intro h
      rw [hiff.mpr h]
  have hstream : streamOf Mono32.next (Mono32.fromSeed s)
      = streamOf Mono32.next (Mono32.fromSeed t) ↔ s % 2 ^ 29 = t % 2 ^ 29 := by
    rw [Mono32_stream_eq_iff, h3]
  refine ⟨hiff, ?_, ?_, hres, ?_, ?_, h3, hstream, ?_, ?_, by decide, by decide, by decide,
    by decide⟩
  · rw [Mono32_seed_eq_fromSeed, Mono32_seed_eq_fromSeed]; exact hiff
  · rw [← hiff]
    constructor
    · intro h
      have e1 : Mono32.fromSeed s = ⟨(Mono32.fromSeed s).state⟩ := rfl
      have e2 : Mono32.fromSeed t = ⟨(Mono32.fromSeed t).state⟩ := rfl
      rw [e1, e2, h]
    · intro h
      rw [h]
  · obtain ⟨os, h, hlen⟩ := outputsOf_total Mono32.next Mono32.wf Mono32_next_wf n
      (Mono32.fromSeed s) (Mono32_seed_wf s).1
    refine ⟨os, hlen, h, ?_, ?_⟩
    · rw [← hres]; exact h
    · rw [Mono32_seed_eq_fromSeed]; exact h
  · rw [Mono32_seeded_set, Set.ncard_coe_Finset, Finset.card_image_of_injective,
      Finset.card_range]
    intro a b hab
    have h2 := congrArg Mono32.m_state hab
    simp only [] at h2
    omega
  · rw [Mono32_seed_eq_fromSeed, Mono32_seed_eq_fromSeed]; exact hstream
  · rw [Mono32_seeded_streams, Set.ncard_image_of_injOn, Set.ncard_coe_Finset,
      Finset.card_range]
    intro a ha b hb hab
    simp only [Finset.coe_range, Set.mem_Iio] at ha hb
    have h := congrFun hab 3
    simp only [streamOf] at h
    exact Nat.add_left_cancel (Mono32_outputs_three_inj _ _ (by omega) (by omega) h)

theorem timeSeed_eq_div (t : Int) :
    ((t >>> (32 : Nat)) % (2 ^ 32 : Int)).toNat = ((t / 2 ^ 32) % 2 ^ 32).toNat := by
  rw [Int.shiftRight_eq_div_pow]
  norm_num

theorem timeSeed_of_nonneg (t : Int) (h0 : 0 ≤ t) :
    ((t / 2 ^ 32) % 2 ^ 32).toNat = (t.toNat / 2 ^ 32) % 2 ^ 32 := by
  obtain ⟨n, rfl⟩ := Int.eq_ofNat_of_zero_le h0
  have : ((n : Int) / 2 ^ 32) % 2 ^ 32 = (((n / 2 ^ 32) % 2 ^ 32 : Nat) : Int) := by
    push_cast; rfl
  rw [this, Int.toNat_ofNat, Int.toNat_ofNat]

/-- C19: with the clock reading as an input t, for every t the state stored by
SplitMix32() and the seed computed in Mono32() are t >> 32 truncated to 32 bits, that
is floor(t / 2^32) mod 2^32, and the first two words of a default-constructed Quad32
or Trio32 are the first two SplitMix32 outputs from that value (the other words are
not assigned).  For 0 <= t < 2^32 the value is 0 whatever t is, so those two words are
1586789953 and 2693788287 for all such t.  SplitMix() stores t itself (t modulo 2^64).
Clock readings 2^32, 5 * 2^32 + 7, 2^48, 2^63 - 1 and -1 give the 32-bit seeds 1, 5,
65536, 2147483647 and 4294967295. -/
theorem time_seed_spec (t : Int) (u4 : Nat × Nat × Nat × Nat) (u3 : Nat × Nat × Nat) :
    (SplitMix32.fromTime t).m_state = ((t / 2 ^ 32) % 2 ^ 32).toNat
      ∧ Mono32.timeSeed t = ((t / 2 ^ 32) % 2 ^ 32).toNat
      ∧ (SplitMix32.fromTime t).m_state = ((t >>> (32 : Nat)) % (2 ^ 32 : Int)).toNat
      ∧ Mono32.timeSeed t = ((t >>> (32 : Nat)) % (2 ^ 32 : Int)).toNat
      ∧ (0 ≤ t → (SplitMix32.fromTime t).m_state = (t.toNat / 2 ^ 32) % 2 ^ 32
          ∧ Mono32.timeSeed t = (t.toNat / 2 ^ 32) % 2 ^ 32)
      ∧ (Quad32.fromTime t u4).state
          = ((SplitMix32.next ⟨((t / 2 ^ 32) % 2 ^ 32).toNat⟩).1,
             (SplitMix32.next (SplitMix32.next ⟨((t / 2 ^ 32) % 2 ^ 32).toNat⟩).2).1,
             u4.2.2.1, u4.2.2.2)
      ∧ (Trio32.fromTime t u3).state
          = ((SplitMix32.next ⟨((t / 2 ^ 32) % 2 ^ 32).toNat⟩).1,
             (SplitMix32.next (SplitMix32.next ⟨((t / 2 ^ 32) % 2 ^ 32).toNat⟩).2).1,
             u3.2.2)
      ∧ (SplitMix.fromTime t).m_state = (t % 2 ^ 64).toNat
      ∧ (0 ≤ t → t < 2 ^ 64 → ((SplitMix.fromTime t).m_state : Int) = t)
      ∧ (0 ≤ t → t < 2 ^ 32 →
          (SplitMix32.fromTime t).m_state = 0
          ∧ Mono32.timeSeed t = 0
          ∧ (Quad32.fromTime t u4).state.1 = 1586789953
          ∧ (Quad32.fromTime t u4).state.2.1 = 2693788287
          ∧ (Trio32.fromTime t u3).state.1 = 1586789953
          ∧ (Trio32.fromTime t u3).state.2.1 = 2693788287
          ∧ ((SplitMix.fromTime t).m_state : Int) = t)
      ∧ (SplitMix32.fromTime (2 ^ 32)).m_state = 1
      ∧ (SplitMix32.fromTime (5 * 2 ^ 32 + 7)).m_state = 5
      ∧ (SplitMix32.fromTime (2 ^ 48)).m_state = 65536
      ∧ (SplitMix32.fromTime (2 ^ 63 - 1)).m_state = 2147483647
      ∧ (SplitMix32.fromTime (-1)).m_state = 4294967295
      ∧ Mono32.timeSeed (2 ^ 32) = 1
      ∧ Mono32.timeSeed (5 * 2 ^ 32 + 7) = 5
      ∧ Mono32.timeSeed (2 ^ 48) = 65536
      ∧ Mono32.timeSeed (2 ^ 63 - 1) = 2147483647
      ∧ Mono32.timeSeed (-1) = 4294967295
      ∧ (SplitMix.fromTime (5 * 2 ^ 32 + 7)).m_state = 21474836487
      ∧ (SplitMix.fromTime (-1)).m_state = 18446744073709551615 := by
  have hgen : (SplitMix32.fromTime t).m_state = ((t / 2 ^ 32) % 2 ^ 32).toNat := by
    simp only [SplitMix32.fromTime, timeSeed_eq_div]
  have hgenM : Mono32.timeSeed t = ((t / 2 ^ 32) % 2 ^ 32).toNat := by
    simp only [Mono32.timeSeed, timeSeed_eq_div]
  have hs : SplitMix32.fromTime t = ⟨((t / 2 ^ 32) % 2 ^ 32).toNat⟩ := by
    simp only [SplitMix32.fromTime, timeSeed_eq_div]
  have hq : (Quad32.fromTime t u4).state
      = ((SplitMix32.next ⟨((t / 2 ^ 32) % 2 ^ 32).toNat⟩).1,
         (SplitMix32.next (SplitMix32.next ⟨((t / 2 ^ 32) % 2 ^ 32).toNat⟩).2).1,
         u4.2.2.1, u4.2.2.2) := by
    obtain ⟨a, b, c, d⟩ := u4
    simp only [Quad32.fromTime, hs]
    rfl
  have ht : (Trio32.fromTime t u3).state
      = ((SplitMix32.next ⟨((t / 2 ^ 32) % 2 ^ 32).toNat⟩).1,
         (SplitMix32.next (SplitMix32.next ⟨((t / 2 ^ 32) % 2 ^ 32).toNat⟩).2).1,
         u3.2.2) := by
    obtain ⟨a, b, c⟩ := u3
    simp only [Trio32.fromTime, hs]
    rfl
  have h64 : 0 ≤ t → t < 2 ^ 64 → ((SplitMix.fromTime t).m_state : Int) = t := by
    intro h0 h1
    simp only [SplitMix.fromTime]
    rw [Int.emod_eq_of_lt h0 h1, Int.toNat_of_nonneg h0]
  refine ⟨hgen, hgenM, rfl, rfl, ?_, hq, ht, rfl, h64, ?_, by decide, by decide, by decide,
    by decide, by decide, by decide, by decide, by decide, by decide, by decide, by decide,
    by decide⟩
  · intro h0
    rw [hgen, hgenM, timeSeed_of_nonneg t h0]
    exact ⟨rfl, rfl⟩
  · intro h0 h1
    have hz : ((t / 2 ^ 32) % 2 ^ 32).toNat = 0 := by
      rw [Int.ediv_eq_zero_of_lt h0 h1]
      rfl
    rw [hq, ht, hgen, hgenM, hz]
    exact ⟨rfl, rfl, rfl, rfl, rfl, rfl, h64 h0 (by omega)⟩

theorem time_seed_spec_witness :
    ((0 : Int) ≤ 1798761600 ∧ (1798761600 : Int) < 2 ^ 32)
      ∧ (SplitMix32.fromTime 1798761600).m_state = 0
      ∧ Mono32.timeSeed 1798761600 = 0
      ∧ (Quad32.fromTime 1798761600 (0, 0, 0, 0)).state.1 = 1586789953 :=
  ⟨by decide,
    ((time_seed_spec 1798761600 (0, 0, 0, 0) (0, 0, 0)).2.2.2.2.2.2.2.2.2.1
      (by decide) (by decide)).1,
    ((time_seed_spec 1798761600 (0, 0, 0, 0) (0, 0, 0)).2.2.2.2.2.2.2.2.2.1
      (by decide) (by decide)).2.1,
    ((time_seed_spec 1798761600 (0, 0, 0, 0) (0, 0, 0)).2.2.2.2.2.2.2.2.2.1
      (by decide) (by decide)).2.2.1⟩

/-! ## Seed sensitivity of all six expander-seeded variants -/

theorem Trio32_seed_returned (t : Trio32) (s : Nat) :
    (Trio32.nextParts (Trio32.seed t s)).1 = (SplitMix32.next ⟨s⟩).1 := rfl

end Romu
